import Mathlib

/-!
# Remote credential-rotation executor (`pkg/users/usersexec.go`)

A shallow embedding of the exec-based user manager: the command executor
`dbExecImpl.exec`, the two transactional operations `UpdateUserPasswords` and
`DiscardOldPasswords`, the password escaping `escapePass` and the redaction
pattern `sensitiveRegexp`.

Go strings are modelled as lists of characters (`GoString`), Go `error` values
as the tree `GoError` (a leaf message, or an `errors.Wrap` around a cause), and
the remote-execution client as a state-passing function.
-/

namespace Users

/-! ## Strings -/

/-- A Go string, as the list of its characters. -/
abbrev GoString := List Char

/-- Go `strings.Contains(s, substr)`: some suffix of `s` starts with `substr`. -/
def strings_Contains : GoString → GoString → Bool
  | [], substr => substr.isPrefixOf []
  | c :: s, substr => substr.isPrefixOf (c :: s) || strings_Contains s substr

/-- Scanning loop of `strings.ReplaceAll` for a non-empty `old`: `skip` counts the
characters of a matched occurrence of `old` that are still to be passed over. -/
def replaceAllAux (old new : GoString) : Nat → GoString → GoString
  | _, [] => []
  | skip + 1, _ :: s => replaceAllAux old new skip s
  | 0, c :: s =>
    if old.isPrefixOf (c :: s) then new ++ replaceAllAux old new (old.length - 1) s
    else c :: replaceAllAux old new 0 s

/-- Go `strings.ReplaceAll(s, old, new)`: every non-overlapping occurrence of `old`,
found left to right, is replaced by `new`; an empty `old` matches before every
character and at the end. -/
def strings_ReplaceAll (s old new : GoString) : GoString :=
  match old with
  | [] => new ++ s.flatMap (fun c => c :: new)
  | _ :: _ => replaceAllAux old new 0 s

/-- The function `escapePass`: quote the single quotes, then the double quotes, then
the backslashes, in the order of the source. -/
def escapePass (pass : GoString) : GoString :=
  let s := strings_ReplaceAll pass "'".toList "\\'".toList
  let s := strings_ReplaceAll s "\"".toList "\\\"".toList
  let s := strings_ReplaceAll s "\\".toList "\\\\".toList
  s

/-! ## Reading a single-quoted SQL literal -/

/-- Body of a single-quoted SQL literal: a backslash makes the next character
literal, an unescaped single quote ends the literal. Returns the value read and
the input left after the closing quote; `none` when the literal is not closed. -/
def sqlLiteralBody : GoString → Option (GoString × GoString)
  | [] => none
  | [c] => if c = '\'' then some ([], []) else none
  | c :: d :: s =>
    if c = '\\' then (sqlLiteralBody s).map (fun r => (d :: r.1, r.2))
    else if c = '\'' then some ([], d :: s)
    else (sqlLiteralBody (d :: s)).map (fun r => (c :: r.1, r.2))

/-- A single-quoted SQL literal: the opening quote, then the body. -/
def sqlLiteral : GoString → Option (GoString × GoString)
  | [] => none
  | c :: s => if c = '\'' then sqlLiteralBody s else none

/-- The literal written by `UpdateUserPasswords` for a password: the escaped
password between single quotes. -/
def quotedPass (p : GoString) : GoString :=
  '\'' :: (escapePass p ++ ['\''])

/-! ## Errors -/

/-- A Go `error` value: an error with a message of its own (a transport error of
the client, or one made by `fmt.Errorf`), or `errors.Wrap(cause, msg)`. -/
inductive GoError where
  | leaf (msg : GoString)
  | wrap (cause : GoError) (msg : GoString)
  deriving DecidableEq, Repr

/-- The method `Error()`: a wrapped error prints its message, a colon and a
blank, then its cause. -/
def GoError.Error : GoError → GoString
  | .leaf msg => msg
  | .wrap cause msg => msg ++ ": ".toList ++ cause.Error

/-- The immediate cause of an error (`Unwrap`), when it wraps one. -/
def GoError.cause? : GoError → Option GoError
  | .leaf _ => none
  | .wrap cause _ => some cause

/-- The call `errors.Wrap(err, message)` on a non-nil error. -/
def errors_Wrap (err : GoError) (message : GoString) : GoError :=
  .wrap err message

/-- The call `fmt.Errorf("sql error: %s", serr)`. -/
def sqlError (serr : GoString) : GoError :=
  .leaf ("sql error: ".toList ++ serr)

/-- Formatting of a `[]string` under the verb `%s`: the elements separated by
blanks, between square brackets. -/
def fmtStrings (xs : List GoString) : GoString :=
  '[' :: (" ".toList.intercalate xs ++ [']'])

/-! ## Redaction: `sensitiveRegexp = regexp.MustCompile(":.*@")` -/

/-- One-character classes of a pattern: a literal character, or `.`, which in Go
matches any character except a newline. -/
inductive Atom where
  | lit (c : Char)
  | dot
  deriving DecidableEq, Repr

/-- Whether a character belongs to a class. -/
def Atom.accepts : Atom → Char → Bool
  | .lit c, x => x == c
  | .dot, x => x != '\n'

/-- Items of a pattern: a class once, or a class under the greedy star. -/
inductive Item where
  | one (a : Atom)
  | star (a : Atom)
  deriving DecidableEq, Repr

/-- Greedy star over a class, followed by the continuation `k`: take one more
character when the rest of the pattern can still match, else stop here. -/
def starGreedy (a : Atom) (k : GoString → Option GoString) : GoString → Option GoString
  | [] => k []
  | c :: s =>
    if a.accepts c then
      match starGreedy a k s with
      | some r => some r
      | none => k (c :: s)
    else k (c :: s)

/-- Leftmost-first match of a pattern at the start of the input: the input left
after the preferred match, or `none` when the pattern does not match here. -/
def matchHere : List Item → GoString → Option GoString
  | [], s => some s
  | .one a :: p, s =>
    match s with
    | [] => none
    | c :: s => if a.accepts c then matchHere p s else none
  | .star a :: p, s => starGreedy a (matchHere p) s

/-- Scanning loop of `ReplaceAllString` for a pattern that matches no empty
string: at each position not inside an earlier match the pattern is tried; a
match is replaced by `repl` and the scan goes on after it. `skip` counts the
characters of the current match still to be passed over. -/
def regexReplaceAux (p : List Item) (repl : GoString) : Nat → GoString → GoString
  | _, [] => []
  | skip + 1, _ :: s => regexReplaceAux p repl skip s
  | 0, c :: s =>
    match matchHere p (c :: s) with
    | some r => repl ++ regexReplaceAux p repl (s.length - r.length) s
    | none => c :: regexReplaceAux p repl 0 s

/-- The compiled pattern `:.*@`. -/
def sensitiveRegexp : List Item :=
  [.one (.lit ':'), .star .dot, .one (.lit '@')]

/-- The call `sensitiveRegexp.ReplaceAllString(s, ":*****@")`. -/
def redact (s : GoString) : GoString :=
  regexReplaceAux sensitiveRegexp ":*****@".toList 0 s

/-! ## The command executor -/

/-- What one remote invocation gives back: the transport-level error (or nil) and
the captured standard output and standard error. -/
structure Captured where
  err : Option GoError
  stdout : GoString
  stderr : GoString
  deriving DecidableEq, Repr

/-- The remote-execution client `clientcmd.Client`, an external collaborator: its
`Exec` runs an argument vector in the pod of the session, from a state `σ` of
the remote side that it may change. -/
structure Client (σ : Type) where
  Exec : σ → List GoString → Captured × σ

/-- The struct `dbExecImpl`: the client (the pod is part of it), the connecting
user, its password and the host. -/
structure dbExecImpl (σ : Type) where
  client : Client σ
  user : GoString
  pass : GoString
  host : GoString

/-- The argument vector that `exec` builds for a statement. -/
def dbExecImpl.cmd {σ : Type} (d : dbExecImpl σ) (stm : GoString) : List GoString :=
  ["mysql".toList, "--database".toList, "performance_schema".toList,
    "-p".toList ++ escapePass d.pass, "-u".toList, d.user, "-h".toList, d.host,
    "-e".toList, stm]

/-- The method `exec`: run the statement remotely; a transport error is wrapped
with the command and the redacted outputs, a standard error holding `ERROR` is an
SQL error of the redacted standard error, anything else is success (`none`). -/
def dbExecImpl.exec {σ : Type} (d : dbExecImpl σ) (stm : GoString) (w : σ) :
    Option GoError × σ :=
  let cmd := d.cmd stm
  let out := d.client.Exec w cmd
  match out.1.err with
  | some err =>
    let sout := redact out.1.stdout
    let serr := redact out.1.stderr
    (some (errors_Wrap err ("run ".toList ++ fmtStrings cmd ++ ", stdout: ".toList ++ sout
      ++ ", stderr: ".toList ++ serr)), out.2)
  | none =>
    if strings_Contains out.1.stderr "ERROR".toList then
      let serr := redact out.1.stderr
      (some (sqlError serr), out.2)
    else (none, out.2)

/-- The results of running statements one after the other, whatever each gives. -/
def dbExecImpl.results {σ : Type} (d : dbExecImpl σ) : List GoString → σ → List (Option GoError)
  | [], _ => []
  | stm :: rest, w => (d.exec stm w).1 :: d.results rest (d.exec stm w).2

/-! ## The rotation manager -/

/-- A `mysql.User`: the username, the new password and the host patterns. -/
structure User where
  Username : GoString
  Password : GoString
  Hosts : List GoString
  deriving DecidableEq, Repr

/-- A run of an operation: the state of the remote side, and the statements passed
to `exec` so far, each with what `exec` returned for it. -/
structure Run (σ : Type) where
  world : σ
  issued : List (GoString × Option GoError)

/-- A run that has issued nothing yet. -/
def Run.start {σ : Type} (w : σ) : Run σ := ⟨w, []⟩

/-- The statements of a run, in the order they were issued. -/
def Run.statements {σ : Type} (r : Run σ) : List GoString := r.issued.map Prod.fst

/-- One call `d.exec(stm)` inside an operation, recorded in the run. -/
def dbExecImpl.issue {σ : Type} (d : dbExecImpl σ) (stm : GoString) (r : Run σ) :
    Option GoError × Run σ :=
  let res := d.exec stm r.world
  (res.1, ⟨res.2, r.issued ++ [(stm, res.1)]⟩)

/-- The statement of `UpdateUserPasswords` for a user and one of its hosts. -/
def alterUserStmt (user : User) (host : GoString) : GoString :=
  "ALTER USER '".toList ++ user.Username ++ "'@'".toList ++ host ++ "' IDENTIFIED BY '".toList
    ++ escapePass user.Password ++ "' RETAIN CURRENT PASSWORD".toList

/-- The statement of `DiscardOldPasswords` for a user and one of its hosts. -/
def discardStmt (user : User) (host : GoString) : GoString :=
  "ALTER USER '".toList ++ user.Username ++ "'@'".toList ++ host
    ++ "' DISCARD OLD PASSWORD".toList

/-- Inner loop of `UpdateUserPasswords` over the hosts of a user; `some err` is the
error the operation returns from inside the loop. -/
def updateHosts {σ : Type} (d : dbExecImpl σ) (user : User) :
    List GoString → Run σ → Option GoError × Run σ
  | [], r => (none, r)
  | host :: hosts, r =>
    let q := alterUserStmt user host
    match d.issue q r with
    | (some err, r) =>
      let err := errors_Wrap err "alter user".toList
      match d.issue "ROLLBACK".toList r with
      | (some errT, r) => (some (errors_Wrap (errors_Wrap errT "rollback".toList) err.Error), r)
      | (none, r) => (some err, r)
    | (none, r) => updateHosts d user hosts r

/-- Outer loop of `UpdateUserPasswords` over the users of the batch. -/
def updateUsers {σ : Type} (d : dbExecImpl σ) : List User → Run σ → Option GoError × Run σ
  | [], r => (none, r)
  | user :: users, r =>
    match updateHosts d user user.Hosts r with
    | (some err, r) => (some err, r)
    | (none, r) => updateUsers d users r

/-- The method `UpdateUserPasswords`. -/
def dbExecImpl.UpdateUserPasswords {σ : Type} (d : dbExecImpl σ) (users : List User)
    (r : Run σ) : Option GoError × Run σ :=
  match d.issue "START TRANSACTION".toList r with
  | (some err, r) => (some err, r)
  | (none, r) =>
    match updateUsers d users r with
    | (some err, r) => (some err, r)
    | (none, r) =>
      match d.issue "FLUSH PRIVILEGES".toList r with
      | (some err, r) =>
        let err := errors_Wrap err "flush privileges".toList
        match d.issue "ROLLBACK".toList r with
        | (some errT, r) =>
          (some (errors_Wrap (errors_Wrap errT "rollback".toList) err.Error), r)
        | (none, r) => (some err, r)
      | (none, r) =>
        match d.issue "COMMIT".toList r with
        | (some err, r) => (some (errors_Wrap err "commit transaction".toList), r)
        | (none, r) => (none, r)

/-- Inner loop of `DiscardOldPasswords` over the hosts of a user. -/
def discardHosts {σ : Type} (d : dbExecImpl σ) (user : User) :
    List GoString → Run σ → Option GoError × Run σ
  | [], r => (none, r)
  | host :: hosts, r =>
    let q := discardStmt user host
    match d.issue q r with
    | (some err, r) =>
      let err := errors_Wrap err "discard old password".toList
      match d.issue "ROLLBACK".toList r with
      | (some errT, r) => (some (errors_Wrap (errors_Wrap errT "rollback".toList) err.Error), r)
      | (none, r) => (some err, r)
    | (none, r) => discardHosts d user hosts r

/-- Outer loop of `DiscardOldPasswords` over the users of the batch. -/
def discardUsers {σ : Type} (d : dbExecImpl σ) : List User → Run σ → Option GoError × Run σ
  | [], r => (none, r)
  | user :: users, r =>
    match discardHosts d user user.Hosts r with
    | (some err, r) => (some err, r)
    | (none, r) => discardUsers d users r

/-- The method `DiscardOldPasswords`. -/
def dbExecImpl.DiscardOldPasswords {σ : Type} (d : dbExecImpl σ) (users : List User)
    (r : Run σ) : Option GoError × Run σ :=
  match d.issue "START TRANSACTION".toList r with
  | (some err, r) => (some err, r)
  | (none, r) =>
    match discardUsers d users r with
    | (some err, r) => (some err, r)
    | (none, r) =>
      match d.issue "FLUSH PRIVILEGES".toList r with
      | (some err, r) =>
        let err := errors_Wrap err "flush privileges".toList
        match d.issue "ROLLBACK".toList r with
        | (some errT, r) =>
          (some (errors_Wrap (errors_Wrap errT "rollback".toList) err.Error), r)
        | (none, r) => (some err, r)
      | (none, r) =>
        match d.issue "COMMIT".toList r with
        | (some err, r) => (some (errors_Wrap err "commit transaction".toList), r)
        | (none, r) => (none, r)

/-! ## The shape shared by the two operations -/

/-- The state of the remote side after running statements one after the other. -/
def dbExecImpl.after {σ : Type} (d : dbExecImpl σ) : List GoString → σ → σ
  | [], w => w
  | stm :: rest, w => d.after rest (d.exec stm w).2

/-- The `ALTER USER ... RETAIN CURRENT PASSWORD` statements of a batch: one per
user and host, users in batch order, hosts in their given order. -/
def alterStatements (users : List User) : List GoString :=
  users.flatMap (fun user => user.Hosts.map (alterUserStmt user))

/-- The `ALTER USER ... DISCARD OLD PASSWORD` statements of a batch, in the same
order. -/
def discardStatements (users : List User) : List GoString :=
  users.flatMap (fun user => user.Hosts.map (discardStmt user))

/-- The error returned once a statement failed with `err` (already annotated) and
the `ROLLBACK` issued in response gave `errT`. -/
def rollbackError (err : GoError) : Option GoError → GoError
  | some errT => errors_Wrap (errors_Wrap errT "rollback".toList) err.Error
  | none => err

/-- Statements issued one after the other, each with the annotation of its
failure; the first failure is answered by a `ROLLBACK` and ends the sequence. -/
def guarded {σ : Type} (d : dbExecImpl σ) :
    List (GoString × GoString) → Run σ → Option GoError × Run σ
  | [], r => (none, r)
  | step :: rest, r =>
    match (d.issue step.2 r).1 with
    | some err =>
      (some (rollbackError (errors_Wrap err step.1)
          (d.issue "ROLLBACK".toList (d.issue step.2 r).2).1),
        (d.issue "ROLLBACK".toList (d.issue step.2 r).2).2)
    | none => guarded d rest (d.issue step.2 r).2

/-- The transaction around guarded statements: `START TRANSACTION`, the statements,
`COMMIT`. -/
def transaction {σ : Type} (d : dbExecImpl σ) (steps : List (GoString × GoString))
    (r : Run σ) : Option GoError × Run σ :=
  match (d.issue "START TRANSACTION".toList r).1 with
  | some err => (some err, (d.issue "START TRANSACTION".toList r).2)
  | none =>
    match (guarded d steps (d.issue "START TRANSACTION".toList r).2).1 with
    | some err => (some err, (guarded d steps (d.issue "START TRANSACTION".toList r).2).2)
    | none =>
      match (d.issue "COMMIT".toList
          (guarded d steps (d.issue "START TRANSACTION".toList r).2).2).1 with
      | some err =>
        (some (errors_Wrap err "commit transaction".toList),
          (d.issue "COMMIT".toList (guarded d steps (d.issue "START TRANSACTION".toList r).2).2).2)
      | none =>
        (none,
          (d.issue "COMMIT".toList (guarded d steps (d.issue "START TRANSACTION".toList r).2).2).2)

/-- The guarded statements of an operation: its per-user statements under the
annotation `label`, then `FLUSH PRIVILEGES`. -/
def stepsOf (label : GoString) (stmts : List GoString) : List (GoString × GoString) :=
  stmts.map (fun q => (label, q)) ++ [("flush privileges".toList, "FLUSH PRIVILEGES".toList)]

/-! ## Concrete sessions used in the examples -/

/-- A remote side where every invocation succeeds with empty outputs. -/
def quietClient : Client Unit where
  Exec := fun w _ => (⟨none, [], []⟩, w)

/-- A remote side that counts the invocations and fails at transport level on the
invocation numbered `n` (from zero), with the error text `boom`. -/
def failAtClient (n : Nat) : Client Nat where
  Exec := fun w _ => (⟨if w = n then some (.leaf "boom".toList) else none, [], []⟩, w + 1)

/-- A session over the quiet remote side. -/
def quietSession : dbExecImpl Unit :=
  ⟨quietClient, "operator".toList, "secret".toList, "db".toList⟩

/-- The batch of the end-to-end scenario. -/
def appBatch : List User :=
  [⟨"app".toList, "p@ss'w\"rd".toList, ["%".toList, "localhost".toList]⟩]

/-- A remote side that counts the invocations and fails at transport level on
every invocation from the one numbered `n` on. -/
def failFromClient (n : Nat) : Client Nat where
  Exec := fun w _ => (⟨if n ≤ w then some (.leaf "boom".toList) else none, [], []⟩, w + 1)

/-- A session whose remote side fails on the invocation numbered `n`. -/
def failAtSession (n : Nat) : dbExecImpl Nat :=
  ⟨failAtClient n, "operator".toList, "secret".toList, "db".toList⟩

/-- A session whose remote side fails from the invocation numbered `n` on. -/
def failFromSession (n : Nat) : dbExecImpl Nat :=
  ⟨failFromClient n, "operator".toList, "secret".toList, "db".toList⟩

/-- A session whose remote side fails at transport level on the first invocation. -/
def brokenSession : dbExecImpl Nat := failAtSession 0

/-- The error `exec` returns for a statement when the transport fails with `boom`
and nothing is captured. -/
def boomError {σ : Type} (d : dbExecImpl σ) (stm : GoString) : GoError :=
  .wrap (.leaf "boom".toList)
    ("run ".toList ++ fmtStrings (d.cmd stm) ++ ", stdout: , stderr: ".toList)

/-- A remote side that counts the invocations; the invocation numbered `n` runs but
the server reports an error on the standard error, all others succeed quietly. -/
def sqlFailAtClient (n : Nat) : Client Nat where
  Exec := fun w _ =>
    (⟨none, [], if w = n then "ERROR 1045 (28000): Access denied".toList else []⟩, w + 1)

/-- A session whose server reports an SQL error on the invocation numbered `n`. -/
def sqlFailAtSession (n : Nat) : dbExecImpl Nat :=
  ⟨sqlFailAtClient n, "operator".toList, "secret".toList, "db".toList⟩

/-! ## The escaping as the specification words it -/

/-- The escaping in the order the specification gives: every backslash is doubled
first, then every single quote gets a backslash, then every double quote. -/
def escapeBackslashFirst (pass : GoString) : GoString :=
  let s := strings_ReplaceAll pass "\\".toList "\\\\".toList
  let s := strings_ReplaceAll s "'".toList "\\'".toList
  let s := strings_ReplaceAll s "\"".toList "\\\"".toList
  s

/-- The usernames and host patterns of a batch, without the passwords. -/
def accountsOf (users : List User) : List (GoString × List GoString) :=
  users.map (fun user => (user.Username, user.Hosts))

/-! ## Facts about strings -/

theorem strings_Contains_iff (s substr : GoString) :
    strings_Contains s substr = true ↔ substr <:+: s := by
  induction s with
  | nil =>
    cases substr <;> simp [strings_Contains, List.isPrefixOf]
  | cons c s ih =>
    rw [strings_Contains, Bool.or_eq_true, ih, List.infix_cons_iff, List.isPrefixOf_iff_prefix]

theorem replaceAllAux_absent (o : Char) (new s : GoString) (h : o ∉ s) :
    replaceAllAux [o] new 0 s = s := by
  induction s with
  | nil => rfl
  | cons c s ih =>
    have hc : o ≠ c := fun hc => h (by simp [hc])
    have hs : o ∉ s := fun hs => h (by simp [hs])
    simp [replaceAllAux, List.isPrefixOf, hc, ih hs]

theorem escapePass_of_plain (p : GoString) (h1 : '\'' ∉ p) (h2 : '"' ∉ p) (h3 : '\\' ∉ p) :
    escapePass p = p := by
  have e1 : strings_ReplaceAll p "'".toList "\\'".toList = p :=
    replaceAllAux_absent '\'' _ p h1
  have e2 : strings_ReplaceAll p "\"".toList "\\\"".toList = p :=
    replaceAllAux_absent '"' _ p h2
  have e3 : strings_ReplaceAll p "\\".toList "\\\\".toList = p :=
    replaceAllAux_absent '\\' _ p h3
  unfold escapePass
  simp only [e1, e2, e3]

/-! ## Facts about redaction -/

theorem atSign_no_at (t : GoString) (h : '@' ∉ t) :
    matchHere [.one (.lit '@')] t = none := by
  cases t with
  | nil => simp [matchHere]
  | cons c s =>
    have hc : c ≠ '@' := fun hc => h (by simp [hc])
    simp [matchHere, Atom.accepts, hc]

theorem starGreedy_no_at (k : GoString → Option GoString)
    (hk : ∀ t, '@' ∉ t → k t = none) (suf : GoString) (h : '@' ∉ suf) :
    starGreedy .dot k suf = none := by
  induction suf with
  | nil => simpa [starGreedy] using hk [] h
  | cons c s ih =>
    have hs : '@' ∉ s := fun hs => h (by simp [hs])
    simp only [starGreedy]
    split
    · rw [ih hs]
      exact hk _ h
    · exact hk _ h

theorem starGreedy_secret (k : GoString → Option GoString)
    (hk : ∀ t, '@' ∉ t → k t = none) (secret suf : GoString)
    (hat : k ('@' :: suf) = some suf) (hn : '\n' ∉ secret) (h : '@' ∉ suf) :
    starGreedy .dot k (secret ++ '@' :: suf) = some suf := by
  induction secret with
  | nil =>
    simp only [List.nil_append, starGreedy]
    rw [starGreedy_no_at k hk suf h]
    simp [Atom.accepts, hat]
  | cons c s ih =>
    have hc : c ≠ '\n' := fun hc => hn (by simp [hc])
    have hs : '\n' ∉ s := fun hs => hn (by simp [hs])
    rw [List.cons_append, starGreedy, ih hs]
    simp [Atom.accepts, hc]

theorem sensitiveRegexp_cons (c : Char) (s : GoString) :
    matchHere sensitiveRegexp (c :: s)
      = if (Atom.lit ':').accepts c then starGreedy .dot (matchHere [.one (.lit '@')]) s
        else none := rfl

theorem matchHere_secret (secret suf : GoString) (hn : '\n' ∉ secret) (h : '@' ∉ suf) :
    matchHere sensitiveRegexp (':' :: secret ++ '@' :: suf) = some suf := by
  have hat : matchHere [.one (.lit '@')] ('@' :: suf) = some suf := by
    simp [matchHere, Atom.accepts]
  have := starGreedy_secret (matchHere [.one (.lit '@')]) atSign_no_at secret suf hat hn h
  rw [List.cons_append, sensitiveRegexp_cons, this]
  simp [Atom.accepts]

theorem matchHere_not_colon (c : Char) (s : GoString) (hc : c ≠ ':') :
    matchHere sensitiveRegexp (c :: s) = none := by
  simp [sensitiveRegexp, matchHere, Atom.accepts, hc]

theorem matchHere_no_at (s : GoString) (h : '@' ∉ s) :
    matchHere sensitiveRegexp s = none := by
  cases s with
  | nil => simp [sensitiveRegexp, matchHere]
  | cons c s =>
    have hs : '@' ∉ s := fun hs => h (by simp [hs])
    rw [sensitiveRegexp_cons, starGreedy_no_at _ atSign_no_at s hs]
    simp

theorem regexReplaceAux_no_at (repl s : GoString) (h : '@' ∉ s) :
    regexReplaceAux sensitiveRegexp repl 0 s = s := by
  induction s with
  | nil => simp [regexReplaceAux]
  | cons c s ih =>
    have hs : '@' ∉ s := fun hs => h (by simp [hs])
    simp [regexReplaceAux, matchHere_no_at (c :: s) h, ih hs]

theorem regexReplaceAux_skip (p : List Item) (repl xs s : GoString) :
    regexReplaceAux p repl xs.length (xs ++ s) = regexReplaceAux p repl 0 s := by
  induction xs with
  | nil => simp
  | cons x xs ih => simpa [regexReplaceAux] using ih

theorem regexReplaceAux_no_colon (repl pre s : GoString) (h : ':' ∉ pre) :
    regexReplaceAux sensitiveRegexp repl 0 (pre ++ s)
      = pre ++ regexReplaceAux sensitiveRegexp repl 0 s := by
  induction pre with
  | nil => simp
  | cons c pre ih =>
    have hc : c ≠ ':' := fun hc => h (by simp [hc])
    have hs : ':' ∉ pre := fun hs => h (by simp [hs])
    simp [regexReplaceAux, matchHere_not_colon c _ hc, ih hs]

/-! ## The operations as transactions over guarded statements -/

theorem guarded_append {σ : Type} (d : dbExecImpl σ) (a b : List (GoString × GoString))
    (r : Run σ) :
    guarded d (a ++ b) r
      = match (guarded d a r).1 with
        | some err => (some err, (guarded d a r).2)
        | none => guarded d b (guarded d a r).2 := by
  induction a generalizing r with
  | nil => simp [guarded]
  | cons step a ih =>
    simp only [List.cons_append, guarded]
    cases h : (d.issue step.2 r).1 with
    | some err => simp
    | none => simp [ih]

theorem updateHosts_eq {σ : Type} (d : dbExecImpl σ) (user : User) (hosts : List GoString)
    (r : Run σ) :
    updateHosts d user hosts r
      = guarded d ((hosts.map (alterUserStmt user)).map (fun q => ("alter user".toList, q))) r := by
  induction hosts generalizing r with
  | nil => simp [updateHosts, guarded]
  | cons host hosts ih =>
    simp only [updateHosts, List.map_cons, guarded]
    rcases h : d.issue (alterUserStmt user host) r with ⟨_ | err, r1⟩
    · simp [ih]
    · rcases h2 : d.issue "ROLLBACK".toList r1 with ⟨_ | errT, r2⟩ <;>
        simp [-String.toList, rollbackError, h2]

theorem updateUsers_eq {σ : Type} (d : dbExecImpl σ) (users : List User) (r : Run σ) :
    updateUsers d users r
      = guarded d ((alterStatements users).map (fun q => ("alter user".toList, q))) r := by
  induction users generalizing r with
  | nil => simp [updateUsers, alterStatements, guarded]
  | cons user users ih =>
    simp only [updateUsers, alterStatements, List.flatMap_cons, List.map_append, guarded_append]
    rw [updateHosts_eq]
    rcases h : guarded d ((user.Hosts.map (alterUserStmt user)).map
      (fun q => ("alter user".toList, q))) r with ⟨_ | err, r1⟩
    · simpa [alterStatements] using ih r1
    · simp

theorem discardHosts_eq {σ : Type} (d : dbExecImpl σ) (user : User) (hosts : List GoString)
    (r : Run σ) :
    discardHosts d user hosts r
      = guarded d ((hosts.map (discardStmt user)).map
          (fun q => ("discard old password".toList, q))) r := by
  induction hosts generalizing r with
  | nil => simp [discardHosts, guarded]
  | cons host hosts ih =>
    simp only [discardHosts, List.map_cons, guarded]
    rcases h : d.issue (discardStmt user host) r with ⟨_ | err, r1⟩
    · simp [ih]
    · rcases h2 : d.issue "ROLLBACK".toList r1 with ⟨_ | errT, r2⟩ <;>
        simp [-String.toList, rollbackError, h2]

theorem discardUsers_eq {σ : Type} (d : dbExecImpl σ) (users : List User) (r : Run σ) :
    discardUsers d users r
      = guarded d ((discardStatements users).map
          (fun q => ("discard old password".toList, q))) r := by
  induction users generalizing r with
  | nil => simp [discardUsers, discardStatements, guarded]
  | cons user users ih =>
    simp only [discardUsers, discardStatements, List.flatMap_cons, List.map_append,
      guarded_append]
    rw [discardHosts_eq]
    rcases h : guarded d ((user.Hosts.map (discardStmt user)).map
      (fun q => ("discard old password".toList, q))) r with ⟨_ | err, r1⟩
    · simpa [discardStatements] using ih r1
    · simp

theorem transaction_of_loop {σ : Type} (d : dbExecImpl σ) (label : GoString)
    (stmts : List GoString) (r : Run σ) :
    transaction d (stepsOf label stmts) r
      = match d.issue "START TRANSACTION".toList r with
        | (some err, r) => (some err, r)
        | (none, r) =>
          match guarded d (stmts.map (fun q => (label, q))) r with
          | (some err, r) => (some err, r)
          | (none, r) =>
            match d.issue "FLUSH PRIVILEGES".toList r with
            | (some err, r) =>
              let err := errors_Wrap err "flush privileges".toList
              match d.issue "ROLLBACK".toList r with
              | (some errT, r) =>
                (some (errors_Wrap (errors_Wrap errT "rollback".toList) err.Error), r)
              | (none, r) => (some err, r)
            | (none, r) =>
              match d.issue "COMMIT".toList r with
              | (some err, r) => (some (errors_Wrap err "commit transaction".toList), r)
              | (none, r) => (none, r) := by
  unfold transaction stepsOf
  rcases h0 : d.issue "START TRANSACTION".toList r with ⟨_ | e0, r0⟩
  · simp only [guarded_append]
    rcases h1 : guarded d (stmts.map (fun q => (label, q))) r0 with ⟨_ | e1, r1⟩
    · simp only [guarded]
      rcases h2 : d.issue "FLUSH PRIVILEGES".toList r1 with ⟨_ | e2, r2⟩
      · simp only []
        rcases h3 : d.issue "COMMIT".toList r2 with ⟨_ | e3, r3⟩ <;> rfl
      · simp only []
        rcases h3 : d.issue "ROLLBACK".toList r2 with ⟨_ | e3, r3⟩ <;> rfl
    · rfl
  · rfl

theorem UpdateUserPasswords_eq {σ : Type} (d : dbExecImpl σ) (users : List User) (r : Run σ) :
    d.UpdateUserPasswords users r
      = transaction d (stepsOf "alter user".toList (alterStatements users)) r := by
  rw [transaction_of_loop]
  unfold dbExecImpl.UpdateUserPasswords
  simp only [updateUsers_eq]

theorem DiscardOldPasswords_eq {σ : Type} (d : dbExecImpl σ) (users : List User) (r : Run σ) :
    d.DiscardOldPasswords users r
      = transaction d (stepsOf "discard old password".toList (discardStatements users)) r := by
  rw [transaction_of_loop]
  unfold dbExecImpl.DiscardOldPasswords
  simp only [discardUsers_eq]

/-! ## Replaying a transaction from the results of its statements -/

theorem results_append {σ : Type} (d : dbExecImpl σ) (a b : List GoString) (w : σ) :
    d.results (a ++ b) w = d.results a w ++ d.results b (d.after a w) := by
  induction a generalizing w with
  | nil => rfl
  | cons stm a ih => simp [dbExecImpl.results, dbExecImpl.after, ih]

theorem after_append {σ : Type} (d : dbExecImpl σ) (a b : List GoString) (w : σ) :
    d.after (a ++ b) w = d.after b (d.after a w) := by
  induction a generalizing w with
  | nil => rfl
  | cons stm a ih => simp [dbExecImpl.after, ih]

theorem results_length {σ : Type} (d : dbExecImpl σ) (a : List GoString) (w : σ) :
    (d.results a w).length = a.length := by
  induction a generalizing w with
  | nil => rfl
  | cons stm a ih => simp [dbExecImpl.results, ih]

theorem guarded_ok {σ : Type} (d : dbExecImpl σ) (steps : List (GoString × GoString))
    (r : Run σ)
    (h : d.results (steps.map Prod.snd) r.world = List.replicate steps.length none) :
    guarded d steps r
      = (none, ⟨d.after (steps.map Prod.snd) r.world,
          r.issued ++ steps.map (fun s => (s.2, none))⟩) := by
  induction steps generalizing r with
  | nil => simp [guarded, dbExecImpl.after]
  | cons step steps ih =>
    simp only [List.map_cons, dbExecImpl.results, List.length_cons, List.replicate_succ,
      List.cons.injEq] at h
    have h1 : (d.issue step.2 r).1 = none := h.1
    rw [guarded]
    simp only [h1]
    rw [ih _ h.2]
    simp [dbExecImpl.issue, dbExecImpl.after, h.1]

theorem guarded_fail {σ : Type} (d : dbExecImpl σ) (pre : List (GoString × GoString))
    (step : GoString × GoString) (post : List (GoString × GoString)) (r : Run σ) (e : GoError)
    (h : d.results (pre.map Prod.snd ++ [step.2]) r.world
      = List.replicate pre.length none ++ [some e]) :
    guarded d (pre ++ step :: post) r
      = (some (rollbackError (errors_Wrap e step.1)
            (d.exec "ROLLBACK".toList (d.after (pre.map Prod.snd ++ [step.2]) r.world)).1),
          ⟨(d.exec "ROLLBACK".toList (d.after (pre.map Prod.snd ++ [step.2]) r.world)).2,
            r.issued ++ pre.map (fun s => (s.2, none))
              ++ [(step.2, some e), ("ROLLBACK".toList,
                (d.exec "ROLLBACK".toList (d.after (pre.map Prod.snd ++ [step.2]) r.world)).1)]⟩) := by
  induction pre generalizing r with
  | nil =>
    simp only [List.map_nil, List.nil_append, dbExecImpl.results, List.length_nil,
      List.replicate_zero, List.cons.injEq, and_true] at h
    have h1 : (d.issue step.2 r).1 = some e := h
    rw [List.nil_append, guarded]
    simp only [h1]
    simp [-String.toList, dbExecImpl.issue, dbExecImpl.after, h]
  | cons p pre ih =>
    simp only [List.map_cons, List.cons_append, dbExecImpl.results, List.length_cons,
      List.replicate_succ, List.cons.injEq] at h
    have h1 : (d.issue p.2 r).1 = none := h.1
    rw [List.cons_append, guarded]
    simp only [h1]
    rw [ih _ h.2]
    simp [-String.toList, dbExecImpl.issue, dbExecImpl.after, h.1]

theorem transaction_start_fail {σ : Type} (d : dbExecImpl σ)
    (steps : List (GoString × GoString)) (w : σ) (e : GoError)
    (h : (d.exec "START TRANSACTION".toList w).1 = some e) :
    transaction d steps (Run.start w)
      = (some e, ⟨(d.exec "START TRANSACTION".toList w).2,
          [("START TRANSACTION".toList, some e)]⟩) := by
  have h1 : (d.issue "START TRANSACTION".toList (Run.start w)).1 = some e := h
  unfold transaction
  simp only [h1]
  simp [-String.toList, dbExecImpl.issue, Run.start, h]

theorem transaction_fail {σ : Type} (d : dbExecImpl σ) (pre : List (GoString × GoString))
    (step : GoString × GoString) (post : List (GoString × GoString)) (w : σ) (e : GoError)
    (h : d.results ("START TRANSACTION".toList :: (pre.map Prod.snd ++ [step.2])) w
      = List.replicate (pre.length + 1) none ++ [some e]) :
    ∃ x w1, transaction d (pre ++ step :: post) (Run.start w)
      = (some (rollbackError (errors_Wrap e step.1) x),
          ⟨w1, ("START TRANSACTION".toList, none) :: pre.map (fun s => (s.2, none))
            ++ [(step.2, some e), ("ROLLBACK".toList, x)]⟩)
      ∧ d.results ("START TRANSACTION".toList
          :: (pre.map Prod.snd ++ [step.2, "ROLLBACK".toList])) w
        = List.replicate (pre.length + 1) none ++ [some e, x] := by
  simp only [dbExecImpl.results, List.replicate_succ, List.cons_append, List.cons.injEq] at h
  have h1 : (d.issue "START TRANSACTION".toList (Run.start w)).1 = none := h.1
  have h2 := guarded_fail d pre step post (d.issue "START TRANSACTION".toList (Run.start w)).2 e h.2
  refine ⟨(d.exec "ROLLBACK".toList (d.after (pre.map Prod.snd ++ [step.2])
      (d.exec "START TRANSACTION".toList w).2)).1,
    (d.exec "ROLLBACK".toList (d.after (pre.map Prod.snd ++ [step.2])
      (d.exec "START TRANSACTION".toList w).2)).2, ?_, ?_⟩
  · unfold transaction
    simp only [h1, h2]
    simp [-String.toList, dbExecImpl.issue, Run.start, h.1]
  · have hsplit : pre.map Prod.snd ++ [step.2, "ROLLBACK".toList]
        = (pre.map Prod.snd ++ [step.2]) ++ ["ROLLBACK".toList] := by simp
    rw [hsplit]
    simp only [dbExecImpl.results, List.replicate_succ, List.cons_append, results_append, h.1, h.2]
    simp [-String.toList, dbExecImpl.issue, Run.start]

theorem transaction_commit {σ : Type} (d : dbExecImpl σ)
    (steps : List (GoString × GoString)) (w : σ) (x : Option GoError)
    (h : d.results ("START TRANSACTION".toList :: (steps.map Prod.snd ++ ["COMMIT".toList])) w
      = List.replicate (steps.length + 1) none ++ [x]) :
    ∃ w1, transaction d steps (Run.start w)
      = (x.map (fun err => errors_Wrap err "commit transaction".toList),
          ⟨w1, ("START TRANSACTION".toList, none) :: steps.map (fun s => (s.2, none))
            ++ [("COMMIT".toList, x)]⟩) := by
  simp only [dbExecImpl.results, List.replicate_succ, List.cons_append, List.cons.injEq,
    results_append] at h
  have hlen : (d.results (steps.map Prod.snd) (d.exec "START TRANSACTION".toList w).2).length
      = (List.replicate steps.length (none : Option GoError)).length := by
    simp [results_length]
  have h3 := List.append_inj h.2 hlen
  have h1 : (d.issue "START TRANSACTION".toList (Run.start w)).1 = none := h.1
  have h2 := guarded_ok d steps (d.issue "START TRANSACTION".toList (Run.start w)).2 h3.1
  have h4 : (d.exec "COMMIT".toList
      (d.after (steps.map Prod.snd) (d.exec "START TRANSACTION".toList w).2)).1 = x := by
    simpa using h3.2
  refine ⟨(d.exec "COMMIT".toList
      (d.after (steps.map Prod.snd) (d.exec "START TRANSACTION".toList w).2)).2, ?_⟩
  unfold transaction
  simp only [h1, h2]
  cases x with
  | none => simp [-String.toList, dbExecImpl.issue, Run.start, h.1, h4]
  | some e => simp [-String.toList, dbExecImpl.issue, Run.start, h.1, h4]

theorem split_steps (steps : List (GoString × GoString)) (pre : List GoString) (s : GoString)
    (post : List GoString) (h : steps.map Prod.snd = pre ++ s :: post) :
    ∃ pre1 step post1, steps = pre1 ++ step :: post1 ∧ pre1.map Prod.snd = pre
      ∧ step.2 = s ∧ pre1.length = pre.length := by
  obtain ⟨l1, l2, h1, h2, h3⟩ := List.map_eq_append_iff.mp h
  obtain ⟨step, l3, h4, h5, _⟩ := List.map_eq_cons_iff.mp h3
  refine ⟨l1, step, l3, by rw [h1, h4], h2, h5, ?_⟩
  rw [← h2, List.length_map]

theorem stepsOf_statements (label : GoString) (stmts : List GoString) :
    (stepsOf label stmts).map Prod.snd = stmts ++ ["FLUSH PRIVILEGES".toList] := by
  simp [-String.toList, stepsOf, Function.comp_def]

theorem stepsOf_length (label : GoString) (stmts : List GoString) :
    (stepsOf label stmts).length = stmts.length + 1 := by
  simp [stepsOf]

theorem stepsOf_issued (label : GoString) (stmts : List GoString) :
    (stepsOf label stmts).map (fun s => (s.2, (none : Option GoError)))
      = (stmts ++ ["FLUSH PRIVILEGES".toList]).map (fun q => (q, none)) := by
  simp [-String.toList, stepsOf, Function.comp_def]

theorem all_none_iff (l : List (Option GoError)) :
    (∀ e ∈ l, e = none) ↔ l = List.replicate l.length none := by
  rw [List.eq_replicate_iff]
  simp

theorem alterStatements_length (users : List User) (H : Nat)
    (h : ∀ u ∈ users, u.Hosts.length = H) :
    (alterStatements users).length = users.length * H := by
  induction users with
  | nil => simp [alterStatements]
  | cons u users ih =>
    have hu : u.Hosts.length = H := h u (by simp)
    have ih1 := ih (fun v hv => h v (by simp [hv]))
    simp only [alterStatements, List.flatMap_cons, List.length_append, List.length_map,
      List.length_cons] at ih1 ⊢
    rw [ih1, hu]
    ring

theorem alterStatements_head (users : List User) (q : GoString)
    (h : q ∈ alterStatements users) : q.head? = some 'A' := by
  simp only [alterStatements, List.mem_flatMap, List.mem_map] at h
  obtain ⟨u, _, host, _, rfl⟩ := h
  rfl

theorem discardStatements_head (users : List User) (q : GoString)
    (h : q ∈ discardStatements users) : q.head? = some 'A' := by
  simp only [discardStatements, List.mem_flatMap, List.mem_map] at h
  obtain ⟨u, _, host, _, rfl⟩ := h
  rfl

theorem rollbackError_message (e1 e2 : GoError) (label : GoString) :
    (rollbackError (errors_Wrap e1 label) (some e2)).Error
      = label ++ ": ".toList ++ e1.Error ++ ": ".toList ++ ("rollback".toList ++ ": ".toList
          ++ e2.Error) := by
  simp [rollbackError, errors_Wrap, GoError.Error]

theorem rollbackError_contains (e1 e2 : GoError) (label : GoString) :
    e1.Error <:+: (rollbackError (errors_Wrap e1 label) (some e2)).Error
      ∧ e2.Error <:+: (rollbackError (errors_Wrap e1 label) (some e2)).Error := by
  rw [rollbackError_message]
  constructor
  · exact ⟨label ++ ": ".toList, ": ".toList ++ ("rollback".toList ++ ": ".toList ++ e2.Error),
      by simp⟩
  · exact ⟨label ++ ": ".toList ++ e1.Error ++ ": ".toList ++ "rollback".toList ++ ": ".toList,
      [], by simp⟩

theorem transaction_rollback_fails {σ : Type} (d : dbExecImpl σ)
    (steps : List (GoString × GoString)) (w : σ) (pre : List GoString) (s : GoString)
    (post : List GoString) (e1 e2 : GoError)
    (hs : steps.map Prod.snd = pre ++ s :: post)
    (h : d.results ("START TRANSACTION".toList :: (pre ++ [s, "ROLLBACK".toList])) w
      = List.replicate (pre.length + 1) none ++ [some e1, some e2]) :
    ∃ err, (transaction d steps (Run.start w)).1 = some err
      ∧ e1.Error <:+: err.Error ∧ e2.Error <:+: err.Error
      ∧ (transaction d steps (Run.start w)).2.statements
          = "START TRANSACTION".toList :: (pre ++ [s, "ROLLBACK".toList]) := by
  obtain ⟨pre1, step, post1, rfl, rfl, rfl, hlen⟩ := split_steps steps pre s post hs
  have hsplit : pre1.map Prod.snd ++ [step.2, "ROLLBACK".toList]
      = (pre1.map Prod.snd ++ [step.2]) ++ ["ROLLBACK".toList] := by simp
  have hrep : List.replicate ((pre1.map Prod.snd).length + 1) (none : Option GoError)
        ++ [some e1, some e2]
      = (List.replicate (pre1.length + 1) none ++ [some e1]) ++ [some e2] := by simp
  have h0 : d.results ("START TRANSACTION".toList :: (pre1.map Prod.snd ++ [step.2])) w
      = List.replicate (pre1.length + 1) none ++ [some e1] := by
    rw [hsplit, ← List.cons_append, results_append, hrep] at h
    refine (List.append_inj h ?_).1
    simp [results_length]
  obtain ⟨x, w1, ht, hx⟩ := transaction_fail d pre1 step post1 w e1 h0
  have hx2 : x = some e2 := by
    rw [List.length_map] at h
    rw [h] at hx
    have := List.append_cancel_left hx
    simp only [List.cons.injEq, and_true, true_and] at this
    exact this.symm
  subst hx2
  refine ⟨_, by rw [ht], (rollbackError_contains e1 e2 step.1).1,
    (rollbackError_contains e1 e2 step.1).2, ?_⟩
  rw [ht]
  simp [-String.toList, Run.statements, Function.comp_def]

theorem take_succ_split {α : Type} (l : List α) (j : Nat) (h : j < l.length) :
    ∃ a b c, l = a ++ b :: c ∧ l.take (j + 1) = a ++ [b] ∧ a.length = j := by
  induction l generalizing j with
  | nil => simp at h
  | cons x l ih =>
    cases j with
    | zero => exact ⟨[], x, l, rfl, by simp, rfl⟩
    | succ j =>
      obtain ⟨a, b, c, h1, h2, h3⟩ := ih j (by simpa using h)
      refine ⟨x :: a, b, c, by rw [h1]; rfl, by simp [h2], by simp [h3]⟩

theorem transaction_loop_fails {σ : Type} (d : dbExecImpl σ) (label : GoString)
    (stmts : List GoString) (w : σ) (k : Nat) (e : GoError)
    (hk1 : 1 ≤ k) (hk : k ≤ stmts.length)
    (h : d.results ("START TRANSACTION".toList :: stmts.take k) w
      = List.replicate k none ++ [some e]) :
    ∃ x, (transaction d (stepsOf label stmts) (Run.start w)).1
        = some (rollbackError (errors_Wrap e label) x)
      ∧ (transaction d (stepsOf label stmts) (Run.start w)).2.statements
        = "START TRANSACTION".toList :: (stmts.take k ++ ["ROLLBACK".toList])
      ∧ d.results ("START TRANSACTION".toList :: (stmts.take k ++ ["ROLLBACK".toList])) w
        = List.replicate k none ++ [some e, x] := by
  obtain ⟨j, rfl⟩ : ∃ j, k = j + 1 := ⟨k - 1, by omega⟩
  obtain ⟨a, b, c, h1, h2, h3⟩ := take_succ_split stmts j (by omega)
  have hsteps : stepsOf label stmts
      = a.map (fun q => (label, q)) ++ (label, b)
          :: (c.map (fun q => (label, q))
            ++ [("flush privileges".toList, "FLUSH PRIVILEGES".toList)]) := by
    rw [h1]
    simp [-String.toList, stepsOf]
  have hpre : (a.map (fun q => (label, q))).map Prod.snd = a := by
    simp [Function.comp_def]
  have h0 : d.results ("START TRANSACTION".toList
        :: ((a.map (fun q => (label, q))).map Prod.snd ++ [b])) w
      = List.replicate ((a.map (fun q => (label, q))).length + 1) none ++ [some e] := by
    rw [hpre, List.length_map, h3, ← h2]
    exact h
  obtain ⟨x, w1, ht, hx⟩ := transaction_fail d (a.map (fun q => (label, q))) (label, b)
    (c.map (fun q => (label, q)) ++ [("flush privileges".toList, "FLUSH PRIVILEGES".toList)])
    w e h0
  rw [hpre, List.length_map, h3] at hx
  refine ⟨x, ?_, ?_, ?_⟩
  · rw [hsteps, ht]
  · rw [hsteps, ht, h2]
    simp [-String.toList, Run.statements, Function.comp_def]
  · rw [h2, List.append_assoc]
    exact hx

theorem transaction_commit_fails {σ : Type} (d : dbExecImpl σ) (label : GoString)
    (stmts : List GoString) (w : σ) (e : GoError)
    (hhead : ∀ q ∈ stmts, q.head? = some 'A')
    (h : d.results ("START TRANSACTION".toList
        :: (stmts ++ ["FLUSH PRIVILEGES".toList, "COMMIT".toList])) w
      = List.replicate (stmts.length + 2) none ++ [some e]) :
    (transaction d (stepsOf label stmts) (Run.start w)).1
        = some (.wrap e "commit transaction".toList)
      ∧ (transaction d (stepsOf label stmts) (Run.start w)).2.statements
        = "START TRANSACTION".toList
          :: (stmts ++ ["FLUSH PRIVILEGES".toList, "COMMIT".toList])
      ∧ (transaction d (stepsOf label stmts) (Run.start w)).2.statements.getLast?
        = some "COMMIT".toList
      ∧ "ROLLBACK".toList ∉ (transaction d (stepsOf label stmts) (Run.start w)).2.statements := by
  have hsplit : stmts ++ ["FLUSH PRIVILEGES".toList, "COMMIT".toList]
      = (stepsOf label stmts).map Prod.snd ++ ["COMMIT".toList] := by
    rw [stepsOf_statements]
    simp
  have hlen : stmts.length + 2 = (stepsOf label stmts).length + 1 := by
    rw [stepsOf_length]
  rw [hsplit, hlen] at h
  obtain ⟨w1, ht⟩ := transaction_commit d _ w (some e) h
  have hst : (transaction d (stepsOf label stmts) (Run.start w)).2.statements
      = "START TRANSACTION".toList
        :: (stmts ++ ["FLUSH PRIVILEGES".toList, "COMMIT".toList]) := by
    rw [ht, stepsOf_issued]
    simp [-String.toList, Run.statements, Function.comp_def]
  refine ⟨by rw [ht]; rfl, hst, ?_, ?_⟩
  · have hc : "START TRANSACTION".toList
          :: (stmts ++ ["FLUSH PRIVILEGES".toList, "COMMIT".toList])
        = ("START TRANSACTION".toList :: (stmts ++ ["FLUSH PRIVILEGES".toList]))
          ++ ["COMMIT".toList] := by simp
    rw [hst, hc, List.getLast?_concat]
  · rw [hst]
    intro hin
    simp only [List.mem_cons, List.mem_append, List.not_mem_nil, or_false] at hin
    rcases hin with hin | hin | hin | hin
    · exact absurd hin (by decide)
    · exact absurd (hhead _ hin) (by decide)
    · exact absurd hin (by decide)
    · exact absurd hin (by decide)

/-! ## Further replay lemmas -/

theorem transaction_success {σ : Type} (d : dbExecImpl σ) (label : GoString)
    (stmts : List GoString) (w : σ)
    (hok : ∀ e ∈ d.results ("START TRANSACTION".toList
      :: (stmts ++ ["FLUSH PRIVILEGES".toList, "COMMIT".toList])) w, e = none) :
    (transaction d (stepsOf label stmts) (Run.start w)).1 = none
      ∧ (transaction d (stepsOf label stmts) (Run.start w)).2.statements
        = "START TRANSACTION".toList
          :: (stmts ++ ["FLUSH PRIVILEGES".toList, "COMMIT".toList]) := by
  rw [all_none_iff, results_length] at hok
  have hsplit : stmts ++ ["FLUSH PRIVILEGES".toList, "COMMIT".toList]
      = (stepsOf label stmts).map Prod.snd ++ ["COMMIT".toList] := by
    rw [stepsOf_statements]
    simp
  have hrep : List.replicate ("START TRANSACTION".toList
        :: (stmts ++ ["FLUSH PRIVILEGES".toList, "COMMIT".toList])).length
        (none : Option GoError)
      = List.replicate ((stepsOf label stmts).length + 1) none ++ [none] := by
    rw [stepsOf_length, ← List.replicate_succ']
    congr 1
    simp
  rw [hrep, hsplit] at hok
  obtain ⟨w1, ht⟩ := transaction_commit d _ w none hok
  rw [ht, stepsOf_issued]
  refine ⟨rfl, ?_⟩
  simp [-String.toList, Run.statements, Function.comp_def]

theorem transaction_flush_fails {σ : Type} (d : dbExecImpl σ) (label : GoString)
    (stmts : List GoString) (w : σ) (e : GoError)
    (hhead : ∀ q ∈ stmts, q.head? = some 'A')
    (h : d.results ("START TRANSACTION".toList :: (stmts ++ ["FLUSH PRIVILEGES".toList])) w
      = List.replicate (stmts.length + 1) none ++ [some e]) :
    (∃ x, (transaction d (stepsOf label stmts) (Run.start w)).1
        = some (rollbackError (errors_Wrap e "flush privileges".toList) x))
      ∧ (transaction d (stepsOf label stmts) (Run.start w)).2.statements
        = "START TRANSACTION".toList
          :: (stmts ++ ["FLUSH PRIVILEGES".toList, "ROLLBACK".toList])
      ∧ (transaction d (stepsOf label stmts) (Run.start w)).2.statements.count
          "ROLLBACK".toList = 1
      ∧ "COMMIT".toList ∉ (transaction d (stepsOf label stmts) (Run.start w)).2.statements := by
  have hpre : (stmts.map (fun q => (label, q))).map Prod.snd = stmts := by
    simp [Function.comp_def]
  have h0 : d.results ("START TRANSACTION".toList
        :: ((stmts.map (fun q => (label, q))).map Prod.snd ++ ["FLUSH PRIVILEGES".toList])) w
      = List.replicate ((stmts.map (fun q => (label, q))).length + 1) none ++ [some e] := by
    rw [hpre, List.length_map]
    exact h
  obtain ⟨x, w1, ht, _⟩ := transaction_fail d (stmts.map (fun q => (label, q)))
    ("flush privileges".toList, "FLUSH PRIVILEGES".toList) [] w e h0
  have hst : (transaction d (stepsOf label stmts) (Run.start w)).2.statements
      = "START TRANSACTION".toList
        :: (stmts ++ ["FLUSH PRIVILEGES".toList, "ROLLBACK".toList]) := by
    unfold stepsOf
    rw [ht]
    simp [-String.toList, Run.statements, Function.comp_def]
  have hnot : ∀ q : GoString, q.head? ≠ some 'A' → q ∉ stmts :=
    fun q hq hin => hq (hhead q hin)
  refine ⟨⟨x, by unfold stepsOf; rw [ht]⟩, hst, ?_, ?_⟩
  · rw [hst, List.count_cons, List.count_append,
      List.count_eq_zero_of_not_mem (hnot _ (by decide))]
    decide
  · rw [hst]
    intro hin
    simp only [List.mem_cons, List.mem_append, List.not_mem_nil, or_false] at hin
    rcases hin with hin | hin | hin | hin
    · exact absurd hin (by decide)
    · exact hnot _ (by decide) hin
    · exact absurd hin (by decide)
    · exact absurd hin (by decide)

theorem transaction_rollback_ok {σ : Type} (d : dbExecImpl σ) (label : GoString)
    (stmts : List GoString) (w : σ) (k : Nat) (e : GoError)
    (hk1 : 1 ≤ k) (hk : k ≤ stmts.length)
    (h : d.results ("START TRANSACTION".toList :: (stmts.take k ++ ["ROLLBACK".toList])) w
      = List.replicate k none ++ [some e, none]) :
    (transaction d (stepsOf label stmts) (Run.start w)).1 = some (.wrap e label)
      ∧ (transaction d (stepsOf label stmts) (Run.start w)).2.statements
        = "START TRANSACTION".toList :: (stmts.take k ++ ["ROLLBACK".toList]) := by
  have hrep : List.replicate k (none : Option GoError) ++ [some e, none]
      = (List.replicate k none ++ [some e]) ++ [none] := by simp
  have h0 : d.results ("START TRANSACTION".toList :: stmts.take k) w
      = List.replicate k none ++ [some e] := by
    have h' := h
    rw [← List.cons_append, results_append, hrep] at h'
    refine (List.append_inj h' ?_).1
    simp [results_length, List.length_take, Nat.min_eq_left hk]
  obtain ⟨x, h1, h2, h3⟩ := transaction_loop_fails d label stmts w k e hk1 hk h0
  have hx : x = none := by
    rw [h] at h3
    have := List.append_cancel_left h3
    simp only [List.cons.injEq, and_true, true_and] at this
    exact this.symm
  subst hx
  exact ⟨h1, h2⟩

theorem alterStatements_no_hosts (users : List User) (h : ∀ u ∈ users, u.Hosts = []) :
    alterStatements users = [] := by
  induction users with
  | nil => rfl
  | cons u users ih =>
    have hu : u.Hosts = [] := h u (by simp)
    have ih1 := ih (fun v hv => h v (by simp [hv]))
    simp only [alterStatements, List.flatMap_cons] at ih1 ⊢
    rw [ih1, hu]
    rfl

theorem discardStatements_accounts (users : List User) :
    discardStatements users
      = (accountsOf users).flatMap (fun a => a.2.map (fun host =>
          "ALTER USER '".toList ++ a.1 ++ "'@'".toList ++ host
            ++ "' DISCARD OLD PASSWORD".toList)) := by
  induction users with
  | nil => rfl
  | cons u users ih =>
    simp only [discardStatements, accountsOf, List.flatMap_cons, List.map_cons] at ih ⊢
    rw [ih]
    rfl

/-! ## The shape of every run of a transaction -/

theorem results_cases {σ : Type} (d : dbExecImpl σ) (steps : List (GoString × GoString))
    (w : σ) :
    d.results (steps.map Prod.snd) w = List.replicate steps.length none
      ∨ ∃ pre step post e, steps = pre ++ step :: post
          ∧ d.results (pre.map Prod.snd ++ [step.2]) w
            = List.replicate pre.length none ++ [some e] := by
  induction steps generalizing w with
  | nil => exact Or.inl rfl
  | cons step steps ih =>
    cases h : (d.exec step.2 w).1 with
    | some e =>
      exact Or.inr ⟨[], step, steps, e, rfl, by simp [dbExecImpl.results, h]⟩
    | none =>
      rcases ih (d.exec step.2 w).2 with hl | ⟨pre, st, post, e, h1, h2⟩
      · exact Or.inl (by simp [dbExecImpl.results, h, hl, List.replicate_succ])
      · refine Or.inr ⟨step :: pre, st, post, e, by rw [h1]; rfl, ?_⟩
        simp [dbExecImpl.results, h, h2, List.replicate_succ]

theorem transaction_shape {σ : Type} (d : dbExecImpl σ)
    (steps : List (GoString × GoString)) (w : σ) :
    (∃ e w1, (d.exec "START TRANSACTION".toList w).1 = some e
        ∧ transaction d steps (Run.start w)
          = (some e, ⟨w1, [("START TRANSACTION".toList, some e)]⟩))
    ∨ (∃ pre step post e x w1, (d.exec "START TRANSACTION".toList w).1 = none
        ∧ steps = pre ++ step :: post
        ∧ transaction d steps (Run.start w)
          = (some (rollbackError (errors_Wrap e step.1) x),
              ⟨w1, ("START TRANSACTION".toList, none) :: pre.map (fun s => (s.2, none))
                ++ [(step.2, some e), ("ROLLBACK".toList, x)]⟩))
    ∨ (∃ x w1, (d.exec "START TRANSACTION".toList w).1 = none
        ∧ transaction d steps (Run.start w)
          = (x.map (fun err => errors_Wrap err "commit transaction".toList),
              ⟨w1, ("START TRANSACTION".toList, none) :: steps.map (fun s => (s.2, none))
                ++ [("COMMIT".toList, x)]⟩)) := by
  cases h0 : (d.exec "START TRANSACTION".toList w).1 with
  | some e =>
    exact Or.inl ⟨e, _, rfl, transaction_start_fail d steps w e h0⟩
  | none =>
    rcases results_cases d steps (d.exec "START TRANSACTION".toList w).2 with
      hl | ⟨pre, step, post, e, h1, h2⟩
    · refine Or.inr (Or.inr ⟨(d.exec "COMMIT".toList
        (d.after (steps.map Prod.snd) (d.exec "START TRANSACTION".toList w).2)).1, ?_⟩)
      have hc : d.results ("START TRANSACTION".toList
            :: (steps.map Prod.snd ++ ["COMMIT".toList])) w
          = List.replicate (steps.length + 1) none ++ [(d.exec "COMMIT".toList
              (d.after (steps.map Prod.snd) (d.exec "START TRANSACTION".toList w).2)).1] := by
        simp only [dbExecImpl.results, results_append, h0, hl, List.replicate_succ,
          List.cons_append]
      obtain ⟨w1, ht⟩ := transaction_commit d steps w _ hc
      exact ⟨w1, rfl, ht⟩
    · have hf : d.results ("START TRANSACTION".toList :: (pre.map Prod.snd ++ [step.2])) w
          = List.replicate (pre.length + 1) none ++ [some e] := by
        simp only [dbExecImpl.results, h0, h2, List.replicate_succ, List.cons_append]
      obtain ⟨x, w1, ht, _⟩ := transaction_fail d pre step post w e hf
      exact Or.inr (Or.inl ⟨pre, step, post, e, x, w1, rfl, h1, by rw [h1]; exact ht⟩)

theorem body_statement (stmts : List GoString) (hhead : ∀ q ∈ stmts, q.head? = some 'A')
    (q : GoString) (hq : q ∈ stmts ++ ["FLUSH PRIVILEGES".toList]) :
    q.head? = some 'A' ∨ q.head? = some 'F' := by
  rcases List.mem_append.mp hq with h | h
  · exact Or.inl (hhead q h)
  · rw [List.mem_singleton.mp h]
    exact Or.inr rfl

theorem not_body_statement (stmts : List GoString)
    (hhead : ∀ q ∈ stmts, q.head? = some 'A') (body : List GoString)
    (hb : body <+: stmts ++ ["FLUSH PRIVILEGES".toList]) (q : GoString)
    (hA : q.head? ≠ some 'A') (hF : q.head? ≠ some 'F') : q ∉ body := by
  intro hin
  rcases body_statement stmts hhead q (hb.subset hin) with h | h
  · exact hA h
  · exact hF h

theorem transaction_terminates {σ : Type} (d : dbExecImpl σ) (label : GoString)
    (stmts : List GoString) (w : σ)
    (h0 : (d.exec "START TRANSACTION".toList w).1 = none) :
    ∃ body t, (transaction d (stepsOf label stmts) (Run.start w)).2.statements
        = "START TRANSACTION".toList :: (body ++ [t])
      ∧ (t = "COMMIT".toList ∨ t = "ROLLBACK".toList)
      ∧ body <+: stmts ++ ["FLUSH PRIVILEGES".toList] := by
  rcases transaction_shape d (stepsOf label stmts) w with
    ⟨e, w1, h1, _⟩ | ⟨pre, step, post, e, x, w1, _, h1, ht⟩ | ⟨x, w1, _, ht⟩
  · rw [h0] at h1
    exact absurd h1 (by simp)
  · refine ⟨pre.map Prod.snd ++ [step.2], "ROLLBACK".toList, ?_, Or.inr rfl, ?_⟩
    · rw [ht]
      simp [-String.toList, Run.statements, Function.comp_def]
    · rw [← stepsOf_statements label stmts, h1]
      exact ⟨post.map Prod.snd, by simp⟩
  · refine ⟨stmts ++ ["FLUSH PRIVILEGES".toList], "COMMIT".toList, ?_, Or.inl rfl,
      List.prefix_refl _⟩
    rw [ht, stepsOf_issued]
    simp [-String.toList, Run.statements, Function.comp_def]

theorem terminated_counts (stmts body : List GoString) (t : GoString)
    (hhead : ∀ q ∈ stmts, q.head? = some 'A')
    (hb : body <+: stmts ++ ["FLUSH PRIVILEGES".toList])
    (ht : t = "COMMIT".toList ∨ t = "ROLLBACK".toList) :
    "START TRANSACTION".toList ∉ body ∧ "COMMIT".toList ∉ body ∧ "ROLLBACK".toList ∉ body
      ∧ ("START TRANSACTION".toList :: (body ++ [t])).count "START TRANSACTION".toList = 1
      ∧ ("START TRANSACTION".toList :: (body ++ [t])).count "COMMIT".toList
          + ("START TRANSACTION".toList :: (body ++ [t])).count "ROLLBACK".toList = 1 := by
  have hS := not_body_statement stmts hhead body hb "START TRANSACTION".toList
    (by decide) (by decide)
  have hC := not_body_statement stmts hhead body hb "COMMIT".toList (by decide) (by decide)
  have hR := not_body_statement stmts hhead body hb "ROLLBACK".toList (by decide) (by decide)
  refine ⟨hS, hC, hR, ?_, ?_⟩
  · rw [List.count_cons, List.count_append, List.count_eq_zero_of_not_mem hS]
    rcases ht with rfl | rfl <;> decide
  · simp only [List.count_cons, List.count_append, List.count_nil,
      List.count_eq_zero_of_not_mem hC, List.count_eq_zero_of_not_mem hR]
    rcases ht with rfl | rfl <;> decide

theorem transaction_success_iff {σ : Type} (d : dbExecImpl σ) (label : GoString)
    (stmts : List GoString) (w : σ) (hhead : ∀ q ∈ stmts, q.head? = some 'A') :
    ((transaction d (stepsOf label stmts) (Run.start w)).1 = none
        ↔ ∀ entry ∈ (transaction d (stepsOf label stmts) (Run.start w)).2.issued,
            entry.2 = none)
      ∧ ((transaction d (stepsOf label stmts) (Run.start w)).1 = none
        ↔ ("COMMIT".toList, (none : Option GoError))
            ∈ (transaction d (stepsOf label stmts) (Run.start w)).2.issued) := by
  have hCS : "COMMIT".toList ≠ "START TRANSACTION".toList := by decide
  have hCR : "COMMIT".toList ≠ "ROLLBACK".toList := by decide
  have hbody : ∀ pre : List (GoString × GoString), pre.map Prod.snd
      <+: stmts ++ ["FLUSH PRIVILEGES".toList] →
      ("COMMIT".toList, (none : Option GoError)) ∉ pre.map (fun s => (s.2, none)) := by
    intro pre hp hin
    obtain ⟨s, hs, heq⟩ := List.mem_map.mp hin
    have h2 : s.2 = "COMMIT".toList := by
      simpa [-String.toList] using congrArg Prod.fst heq
    have hmem : "COMMIT".toList ∈ pre.map Prod.snd := by
      rw [← h2]
      exact List.mem_map_of_mem _ hs
    exact not_body_statement stmts hhead _ hp _ (by decide) (by decide) hmem
  rcases transaction_shape d (stepsOf label stmts) w with
    ⟨e, w1, _, ht⟩ | ⟨pre, step, post, e, x, w1, _, h1, ht⟩ | ⟨x, w1, _, ht⟩
  · rw [ht]
    constructor
    · constructor
      · intro h
        exact absurd h (by simp)
      · intro h
        exact absurd (h _ (List.mem_singleton.mpr rfl)) (by simp)
    · constructor
      · intro h
        exact absurd h (by simp)
      · intro h
        have := List.mem_singleton.mp h
        exact absurd (congrArg Prod.snd this) (by simp)
  · have hp : pre.map Prod.snd <+: stmts ++ ["FLUSH PRIVILEGES".toList] := by
      rw [← stepsOf_statements label stmts, h1]
      exact ⟨(step :: post).map Prod.snd, by simp⟩
    rw [ht]
    constructor
    · constructor
      · intro h
        exact absurd h (by simp)
      · intro h
        have := h (step.2, some e) (by simp)
        exact absurd this (by simp)
    · constructor
      · intro h
        exact absurd h (by simp)
      · intro h
        simp only [List.cons_append, List.mem_cons, List.mem_append, List.not_mem_nil,
          or_false, Prod.mk.injEq] at h
        rcases h with h | h | h | h
        · exact absurd h.1 hCS
        · exact absurd h (hbody pre hp)
        · exact absurd h.2 (by simp)
        · exact absurd h.1 hCR
  · have hp : (stepsOf label stmts).map Prod.snd <+: stmts ++ ["FLUSH PRIVILEGES".toList] := by
      rw [stepsOf_statements]
    rw [ht]
    cases x with
    | none =>
      constructor
      · constructor
        · intro _ entry hin
          simp only [List.cons_append, List.mem_cons, List.mem_append, List.mem_map,
            List.not_mem_nil, or_false] at hin
          rcases hin with rfl | ⟨s, _, rfl⟩ | rfl <;> rfl
        · intro _
          rfl
      · constructor
        · intro _
          simp
        · intro _
          rfl
    | some e =>
      constructor
      · constructor
        · intro h
          exact absurd h (by simp)
        · intro h
          have := h ("COMMIT".toList, some e) (by simp)
          exact absurd this (by simp)
      · constructor
        · intro h
          exact absurd h (by simp)
        · intro h
          simp only [List.cons_append, List.mem_cons, List.mem_append, List.not_mem_nil,
            or_false, Prod.mk.injEq] at h
          rcases h with h | h | h
          · exact absurd h.1 hCS
          · exact absurd h (hbody _ hp)
          · exact absurd h.2 (by simp)

/-! ## The statement in the error of a transport failure -/

theorem last_in_intercalate (sep : GoString) (xs : List GoString) (stm : GoString) :
    stm <:+ sep.intercalate (xs ++ [stm]) := by
  induction xs with
  | nil => simp [List.intercalate, List.intersperse]
  | cons x xs ih =>
    cases xs with
    | nil =>
      exact ⟨x ++ sep, by simp [List.intercalate, List.intersperse]⟩
    | cons y ys =>
      obtain ⟨t, ht⟩ := ih
      have e : sep.intercalate (x :: y :: ys ++ [stm])
          = x ++ sep ++ sep.intercalate (y :: ys ++ [stm]) := by
        simp [List.intercalate, List.intersperse]
      refine ⟨x ++ sep ++ t, ?_⟩
      rw [e, ← ht]
      simp

theorem stmt_in_cmd {σ : Type} (d : dbExecImpl σ) (stm : GoString) :
    stm <:+: fmtStrings (d.cmd stm) := by
  have hc : d.cmd stm = ["mysql".toList, "--database".toList, "performance_schema".toList,
      "-p".toList ++ escapePass d.pass, "-u".toList, d.user, "-h".toList, d.host,
      "-e".toList] ++ [stm] := rfl
  obtain ⟨t, ht⟩ := last_in_intercalate " ".toList
    ["mysql".toList, "--database".toList, "performance_schema".toList,
      "-p".toList ++ escapePass d.pass, "-u".toList, d.user, "-h".toList, d.host,
      "-e".toList] stm
  refine ⟨'[' :: t, [']'], ?_⟩
  unfold fmtStrings
  rw [hc, ← ht]
  simp

theorem stmt_in_transport_error {σ : Type} (d : dbExecImpl σ) (stm : GoString) (w : σ)
    (te : GoError) (h : (d.client.Exec w (d.cmd stm)).1.err = some te) :
    ∃ e, (d.exec stm w).1 = some e ∧ stm <:+: e.Error := by
  refine ⟨errors_Wrap te ("run ".toList ++ fmtStrings (d.cmd stm) ++ ", stdout: ".toList
      ++ redact (d.client.Exec w (d.cmd stm)).1.stdout ++ ", stderr: ".toList
      ++ redact (d.client.Exec w (d.cmd stm)).1.stderr), by simp only [dbExecImpl.exec, h], ?_⟩
  simp only [errors_Wrap, GoError.Error]
  refine List.IsInfix.trans (stmt_in_cmd d stm) ?_
  refine ⟨"run ".toList, ", stdout: ".toList ++ redact (d.client.Exec w (d.cmd stm)).1.stdout
      ++ ", stderr: ".toList ++ redact (d.client.Exec w (d.cmd stm)).1.stderr
      ++ ": ".toList ++ te.Error, ?_⟩
  simp

theorem rollbackError_keeps (e : GoError) (label m : GoString) (x : Option GoError)
    (h : m <:+: e.Error) : m <:+: (rollbackError (errors_Wrap e label) x).Error := by
  have h1 : m <:+: (errors_Wrap e label).Error := by
    simp only [errors_Wrap, GoError.Error]
    exact h.trans (List.suffix_append _ _).isInfix
  cases x with
  | none => exact h1
  | some errT =>
    simp only [rollbackError, errors_Wrap, GoError.Error] at h1 ⊢
    exact h1.trans ⟨[], ": ".toList ++ ("rollback".toList ++ ": ".toList ++ errT.Error),
      by simp⟩

theorem transaction_transport_failure {σ : Type} (d : dbExecImpl σ) (label : GoString)
    (stmts : List GoString) (w : σ) (pre : List GoString) (s : GoString)
    (post : List GoString) (te : GoError)
    (hs : stmts = pre ++ s :: post)
    (hok : d.results ("START TRANSACTION".toList :: pre) w
      = List.replicate (pre.length + 1) none)
    (hte : (d.client.Exec (d.after ("START TRANSACTION".toList :: pre) w) (d.cmd s)).1.err
      = some te) :
    ∃ err, (transaction d (stepsOf label stmts) (Run.start w)).1 = some err
      ∧ s <:+: err.Error := by
  obtain ⟨e, he, hin⟩ := stmt_in_transport_error d s _ te hte
  have hpre : (pre.map (fun q => (label, q))).map Prod.snd = pre := by
    simp [Function.comp_def]
  have hsteps : stepsOf label stmts
      = pre.map (fun q => (label, q)) ++ (label, s)
          :: (post.map (fun q => (label, q))
            ++ [("flush privileges".toList, "FLUSH PRIVILEGES".toList)]) := by
    rw [hs]
    simp [-String.toList, stepsOf]
  have h0 : d.results ("START TRANSACTION".toList
        :: ((pre.map (fun q => (label, q))).map Prod.snd ++ [s])) w
      = List.replicate ((pre.map (fun q => (label, q))).length + 1) none ++ [some e] := by
    rw [hpre, List.length_map, ← List.cons_append, results_append, hok]
    simp only [dbExecImpl.results, he]
  obtain ⟨x, w1, ht, _⟩ := transaction_fail d (pre.map (fun q => (label, q))) (label, s)
    (post.map (fun q => (label, q)) ++ [("flush privileges".toList, "FLUSH PRIVILEGES".toList)])
    w e h0
  exact ⟨_, by rw [hsteps, ht], rollbackError_keeps e label s x hin⟩

/-! ## Claims about escaping, the executor and redaction -/

/-- C1: on the password made of one single quote the round trip fails: the
literal written for it is read back as one backslash, and a quote is left over. -/
theorem escapePass_roundtrip_fails :
    sqlLiteral (quotedPass "'".toList) = some ("\\".toList, "'".toList)
      ∧ sqlLiteral (quotedPass "'".toList) ≠ some ("'".toList, []) := by
  decide

/-- C2: on a transport failure the error of `exec` echoes the command, and with it
the connecting password `secret`, although neither the transport error text nor
the captured outputs hold it. -/
theorem exec_transport_error_echoes_password :
    (brokenSession.exec "COMMIT".toList 0).1.map GoError.Error
        = some ("run [mysql --database performance_schema -psecret -u operator -h db -e COMMIT]"
            ++ ", stdout: , stderr: : boom").toList
      ∧ (∃ err, (brokenSession.exec "COMMIT".toList 0).1 = some err
          ∧ brokenSession.pass <:+: err.Error)
      ∧ (brokenSession.client.Exec 0 (brokenSession.cmd "COMMIT".toList)).1
          = ⟨some (.leaf "boom".toList), [], []⟩
      ∧ ¬ brokenSession.pass <:+: "boom".toList
      ∧ ¬ brokenSession.pass <:+: [] := by
  refine ⟨by decide, ⟨_, rfl, ?_⟩, by decide, by decide, by decide⟩
  decide

/-- C7: for the batch of the end-to-end scenario the two `ALTER USER` statements
carry the password as `p@ss\\'w\\"rd`, two backslashes before each quote, and not
as `p@ss\'w\"rd`; the other three statements are as the scenario lists them. -/
theorem UpdateUserPasswords_appBatch_statements :
    (quietSession.UpdateUserPasswords appBatch (Run.start ())).2.statements
      = ["START TRANSACTION".toList,
         "ALTER USER 'app'@'%' IDENTIFIED BY 'p@ss\\\\'w\\\\\"rd' RETAIN CURRENT PASSWORD".toList,
         "ALTER USER 'app'@'localhost' IDENTIFIED BY 'p@ss\\\\'w\\\\\"rd' RETAIN CURRENT PASSWORD".toList,
         "FLUSH PRIVILEGES".toList, "COMMIT".toList]
    ∧ (quietSession.UpdateUserPasswords appBatch (Run.start ())).2.statements
      ≠ ["START TRANSACTION".toList,
         "ALTER USER 'app'@'%' IDENTIFIED BY 'p@ss\\'w\\\"rd' RETAIN CURRENT PASSWORD".toList,
         "ALTER USER 'app'@'localhost' IDENTIFIED BY 'p@ss\\'w\\\"rd' RETAIN CURRENT PASSWORD".toList,
         "FLUSH PRIVILEGES".toList, "COMMIT".toList]
    ∧ (quietSession.UpdateUserPasswords appBatch (Run.start ())).1 = none := by
  decide

/-- C9: `exec` succeeds exactly when the remote invocation reports no transport
error and the captured standard error does not contain `ERROR`; a transport error
`e` is returned wrapped as a transport failure whatever the standard error holds,
an `ERROR` in the standard error without transport error gives the SQL error, and
two invocations with the same transport error and standard error succeed or fail
alike, whatever their standard outputs. -/
theorem exec_success_iff {σ τ : Type} (d : dbExecImpl σ) (stm : GoString) (w : σ) :
    ((d.exec stm w).1 = none ↔
      (d.client.Exec w (d.cmd stm)).1.err = none
        ∧ ¬ "ERROR".toList <:+: (d.client.Exec w (d.cmd stm)).1.stderr)
    ∧ (∀ e, (d.client.Exec w (d.cmd stm)).1.err = some e →
        (d.exec stm w).1 = some (.wrap e ("run ".toList ++ fmtStrings (d.cmd stm)
          ++ ", stdout: ".toList ++ redact (d.client.Exec w (d.cmd stm)).1.stdout
          ++ ", stderr: ".toList ++ redact (d.client.Exec w (d.cmd stm)).1.stderr)))
    ∧ ((d.client.Exec w (d.cmd stm)).1.err = none
        → "ERROR".toList <:+: (d.client.Exec w (d.cmd stm)).1.stderr
        → (d.exec stm w).1
            = some (.leaf ("sql error: ".toList ++ redact (d.client.Exec w (d.cmd stm)).1.stderr)))
    ∧ (∀ (d' : dbExecImpl τ) (stm' : GoString) (w' : τ),
        (d'.client.Exec w' (d'.cmd stm')).1.err = (d.client.Exec w (d.cmd stm)).1.err →
        (d'.client.Exec w' (d'.cmd stm')).1.stderr = (d.client.Exec w (d.cmd stm)).1.stderr →
        ((d'.exec stm' w').1 = none ↔ (d.exec stm w).1 = none)) := by
  have key : ∀ {ρ : Type} (d : dbExecImpl ρ) (stm : GoString) (w : ρ),
      ((d.exec stm w).1 = none ↔
        (d.client.Exec w (d.cmd stm)).1.err = none
          ∧ ¬ "ERROR".toList <:+: (d.client.Exec w (d.cmd stm)).1.stderr) := by
    intro ρ d stm w
    rw [← strings_Contains_iff]
    unfold dbExecImpl.exec
    generalize "ERROR".toList = marker
    cases h : (d.client.Exec w (d.cmd stm)).1.err with
    | some e => simp [h]
    | none =>
      cases hc : strings_Contains (d.client.Exec w (d.cmd stm)).1.stderr marker <;> simp [h, hc]
  refine ⟨key d stm w, ?_, ?_, ?_⟩
  · intro e he
    simp [dbExecImpl.exec, he, errors_Wrap]
  · intro he hc
    rw [← strings_Contains_iff] at hc
    unfold dbExecImpl.exec
    simp only [he, hc, sqlError, if_true]
  · intro d' stm' w' he hs
    rw [key d' stm' w', key d stm w, he, hs]

/-- A witness of C9 on the session whose first invocation fails at transport level. -/
theorem exec_success_iff_witness :
    (brokenSession.exec "COMMIT".toList 0).1 ≠ none
      ∧ (brokenSession.exec "COMMIT".toList 1).1 = none := by
  have h0 := (exec_success_iff (τ := Nat) brokenSession "COMMIT".toList 0).1
  have h1 := (exec_success_iff (τ := Nat) brokenSession "COMMIT".toList 1).1
  refine ⟨fun h => ?_, h1.2 ⟨by decide, by decide⟩⟩
  have := (h0.1 h).1
  revert this
  decide

/-- C10, counterexample: with the empty prefix, the secret `a`, newline, `b` and the
empty suffix the redaction leaves the text as it is, secret included. -/
theorem redact_newline_secret_survives :
    ':' ∉ ([] : GoString) ∧ '@' ∉ ([] : GoString)
      ∧ redact ([] ++ ':' :: "a\nb".toList ++ '@' :: []) ≠ [] ++ ":*****@".toList ++ []
      ∧ redact ([] ++ ':' :: "a\nb".toList ++ '@' :: []) = ":a\nb@".toList := by
  decide

/-- C10, amended: for every prefix without a colon, every secret without a newline
and every suffix without an at-sign, redacting prefix, colon, secret, at-sign,
suffix gives the prefix, `:*****@` and the suffix. -/
theorem redact_secret_without_newline (pre secret suf : GoString)
    (hp : ':' ∉ pre) (hn : '\n' ∉ secret) (hs : '@' ∉ suf) :
    redact (pre ++ ':' :: secret ++ '@' :: suf) = pre ++ ":*****@".toList ++ suf := by
  unfold redact
  rw [List.append_assoc, regexReplaceAux_no_colon _ _ _ hp, List.cons_append, regexReplaceAux,
    ← List.cons_append, matchHere_secret secret suf hn hs]
  have hlen : (secret ++ '@' :: suf).length - suf.length = (secret ++ ['@']).length := by
    simp
    omega
  have happ : secret ++ '@' :: suf = (secret ++ ['@']) ++ suf := by simp
  simp only [hlen]
  rw [happ, regexReplaceAux_skip, regexReplaceAux_no_at _ _ hs]
  simp

/-- A witness of the amended C10 on a connection string. -/
theorem redact_secret_without_newline_witness :
    redact ("mysql -u root".toList ++ ':' :: "s3:cr@t".toList ++ '@' :: "db:3306".toList)
      = "mysql -u root".toList ++ ":*****@".toList ++ "db:3306".toList :=
  redact_secret_without_newline "mysql -u root".toList "s3:cr@t".toList "db:3306".toList
    (by decide) (by decide) (by decide)

/-! ## Claims about the two operations -/

/-- C3: when `START TRANSACTION`, the `ALTER USER` statements of the batch, `FLUSH
PRIVILEGES` and `COMMIT` all succeed, `UpdateUserPasswords` returns success and
issues exactly these statements in this order; with `H` hosts for each of the
users that is `1 + N * H + 1 + 1` statements. -/
theorem UpdateUserPasswords_success {σ : Type} (d : dbExecImpl σ) (users : List User) (w : σ)
    (hok : ∀ e ∈ d.results ("START TRANSACTION".toList
      :: (alterStatements users ++ ["FLUSH PRIVILEGES".toList, "COMMIT".toList])) w, e = none) :
    (d.UpdateUserPasswords users (Run.start w)).1 = none
      ∧ (d.UpdateUserPasswords users (Run.start w)).2.statements
        = "START TRANSACTION".toList
          :: (alterStatements users ++ ["FLUSH PRIVILEGES".toList, "COMMIT".toList])
      ∧ ∀ H, (∀ u ∈ users, u.Hosts.length = H) →
          (d.UpdateUserPasswords users (Run.start w)).2.statements.length
            = 1 + users.length * H + 1 + 1 := by
  rw [all_none_iff, results_length] at hok
  have hsplit : alterStatements users ++ ["FLUSH PRIVILEGES".toList, "COMMIT".toList]
      = (stepsOf "alter user".toList (alterStatements users)).map Prod.snd
        ++ ["COMMIT".toList] := by
    rw [stepsOf_statements]
    simp
  have hrep : List.replicate ("START TRANSACTION".toList
        :: (alterStatements users ++ ["FLUSH PRIVILEGES".toList, "COMMIT".toList])).length
        (none : Option GoError)
      = List.replicate ((stepsOf "alter user".toList (alterStatements users)).length + 1) none
        ++ [none] := by
    rw [stepsOf_length, ← List.replicate_succ']
    congr 1
    simp
  rw [hrep, hsplit] at hok
  obtain ⟨w1, ht⟩ := transaction_commit d _ w none hok
  rw [UpdateUserPasswords_eq, ht]
  have hst : (Run.statements ⟨w1, ("START TRANSACTION".toList, (none : Option GoError))
      :: (stepsOf "alter user".toList (alterStatements users)).map (fun s => (s.2, none))
        ++ [("COMMIT".toList, none)]⟩)
      = "START TRANSACTION".toList
        :: (alterStatements users ++ ["FLUSH PRIVILEGES".toList, "COMMIT".toList]) := by
    rw [stepsOf_issued]
    simp [-String.toList, Run.statements, Function.comp_def]
  refine ⟨rfl, hst, ?_⟩
  intro H hH
  simp only [hst]
  simp [alterStatements_length users H hH]
  ring

/-- A witness of C3: the batch of the end-to-end scenario on the quiet remote side. -/
theorem UpdateUserPasswords_success_witness :
    (quietSession.UpdateUserPasswords appBatch (Run.start ())).1 = none
      ∧ (quietSession.UpdateUserPasswords appBatch (Run.start ())).2.statements.length
        = 1 + 1 * 2 + 1 + 1 :=
  have h := UpdateUserPasswords_success quietSession appBatch () (by decide)
  ⟨h.1, h.2.2 2 (by decide)⟩

/-- C4: when `START TRANSACTION` and the first `k - 1` `ALTER USER` statements
succeed and the `k`-th fails, `UpdateUserPasswords` returns an error and issues
exactly `START TRANSACTION`, the first `k` `ALTER USER` statements in input order
and one `ROLLBACK`: `1 + k + 1` statements, with no `FLUSH PRIVILEGES` and no
`COMMIT` among them. -/
theorem UpdateUserPasswords_alter_fails {σ : Type} (d : dbExecImpl σ) (users : List User)
    (w : σ) (k : Nat) (e : GoError) (hk1 : 1 ≤ k) (hk : k ≤ (alterStatements users).length)
    (h : d.results ("START TRANSACTION".toList :: (alterStatements users).take k) w
      = List.replicate k none ++ [some e]) :
    (∃ err, (d.UpdateUserPasswords users (Run.start w)).1 = some err)
      ∧ (d.UpdateUserPasswords users (Run.start w)).2.statements
        = "START TRANSACTION".toList
          :: ((alterStatements users).take k ++ ["ROLLBACK".toList])
      ∧ (d.UpdateUserPasswords users (Run.start w)).2.statements.length = 1 + k + 1
      ∧ "FLUSH PRIVILEGES".toList ∉ (d.UpdateUserPasswords users (Run.start w)).2.statements
      ∧ "COMMIT".toList ∉ (d.UpdateUserPasswords users (Run.start w)).2.statements := by
  obtain ⟨x, h1, h2, _⟩ :=
    transaction_loop_fails d "alter user".toList (alterStatements users) w k e hk1 hk h
  rw [UpdateUserPasswords_eq]
  have hmem : ∀ q, q.head? ≠ some 'A' → q ≠ "START TRANSACTION".toList →
      q ≠ "ROLLBACK".toList →
      q ∉ (transaction d (stepsOf "alter user".toList (alterStatements users))
        (Run.start w)).2.statements := by
    intro q hq hs hr hin
    rw [h2] at hin
    simp only [List.mem_cons, List.mem_append, List.mem_singleton, List.not_mem_nil,
      or_false] at hin
    rcases hin with hin | hin | hin
    · exact hs hin
    · exact hq (alterStatements_head users q (List.mem_of_mem_take hin))
    · exact hr hin
  refine ⟨⟨_, h1⟩, h2, ?_, hmem _ (by decide) (by decide) (by decide),
    hmem _ (by decide) (by decide) (by decide)⟩
  rw [h2]
  simp [List.length_take, Nat.min_eq_left hk]
  omega

set_option maxRecDepth 100000 in
/-- A witness of C4: the second `ALTER USER` of the scenario batch fails. -/
theorem UpdateUserPasswords_alter_fails_witness :
    (∃ err, ((failAtSession 2).UpdateUserPasswords appBatch (Run.start 0)).1 = some err)
      ∧ ((failAtSession 2).UpdateUserPasswords appBatch (Run.start 0)).2.statements
        = "START TRANSACTION".toList
          :: ((alterStatements appBatch).take 2 ++ ["ROLLBACK".toList])
      ∧ ((failAtSession 2).UpdateUserPasswords appBatch (Run.start 0)).2.statements.length
        = 1 + 2 + 1 :=
  have h := UpdateUserPasswords_alter_fails (failAtSession 2) appBatch 0 2
    (boomError (failAtSession 2)
      (alterUserStmt ⟨"app".toList, "p@ss'w\"rd".toList, []⟩ "localhost".toList))
    (by decide) (by decide) (by decide)
  ⟨h.1, h.2.1, h.2.2.1⟩

/-- C5: when a per-user statement or `FLUSH PRIVILEGES` (the statement `s` that
follows `pre` in the sequence of the operation) fails with `e1` and the `ROLLBACK`
issued in response fails with `e2`, the error returned by `UpdateUserPasswords`,
and likewise by `DiscardOldPasswords`, contains the messages of both. -/
theorem rollback_failure_keeps_both_causes {σ : Type} (d : dbExecImpl σ) (users : List User)
    (w : σ) (pre : List GoString) (s : GoString) (post : List GoString) (e1 e2 : GoError)
    (h : d.results ("START TRANSACTION".toList :: (pre ++ [s, "ROLLBACK".toList])) w
      = List.replicate (pre.length + 1) none ++ [some e1, some e2]) :
    (alterStatements users ++ ["FLUSH PRIVILEGES".toList] = pre ++ s :: post →
      ∃ err, (d.UpdateUserPasswords users (Run.start w)).1 = some err
        ∧ e1.Error <:+: err.Error ∧ e2.Error <:+: err.Error)
    ∧ (discardStatements users ++ ["FLUSH PRIVILEGES".toList] = pre ++ s :: post →
      ∃ err, (d.DiscardOldPasswords users (Run.start w)).1 = some err
        ∧ e1.Error <:+: err.Error ∧ e2.Error <:+: err.Error) := by
  constructor
  · intro hs
    rw [← stepsOf_statements "alter user".toList] at hs
    obtain ⟨err, h1, h2, h3, _⟩ := transaction_rollback_fails d _ w pre s post e1 e2 hs h
    exact ⟨err, by rw [UpdateUserPasswords_eq, h1], h2, h3⟩
  · intro hs
    rw [← stepsOf_statements "discard old password".toList] at hs
    obtain ⟨err, h1, h2, h3, _⟩ := transaction_rollback_fails d _ w pre s post e1 e2 hs h
    exact ⟨err, by rw [DiscardOldPasswords_eq, h1], h2, h3⟩

set_option maxRecDepth 100000 in
/-- A witness of C5: from the second per-user statement on every invocation fails,
so the statement and the `ROLLBACK` after it both fail; the returned errors hold
both messages. -/
theorem rollback_failure_keeps_both_causes_witness :
    (∃ err, ((failFromSession 2).UpdateUserPasswords appBatch (Run.start 0)).1 = some err
      ∧ (boomError (failFromSession 2)
          (alterUserStmt ⟨"app".toList, "p@ss'w\"rd".toList, []⟩ "localhost".toList)).Error
          <:+: err.Error
      ∧ (boomError (failFromSession 2) "ROLLBACK".toList).Error <:+: err.Error)
    ∧ (∃ err, ((failFromSession 2).DiscardOldPasswords appBatch (Run.start 0)).1 = some err
      ∧ (boomError (failFromSession 2)
          (discardStmt ⟨"app".toList, [], []⟩ "localhost".toList)).Error <:+: err.Error
      ∧ (boomError (failFromSession 2) "ROLLBACK".toList).Error <:+: err.Error) :=
  ⟨(rollback_failure_keeps_both_causes (failFromSession 2) appBatch 0
      [alterUserStmt ⟨"app".toList, "p@ss'w\"rd".toList, []⟩ "%".toList]
      (alterUserStmt ⟨"app".toList, "p@ss'w\"rd".toList, []⟩ "localhost".toList)
      ["FLUSH PRIVILEGES".toList] _ _ (by decide)).1 (by decide),
   (rollback_failure_keeps_both_causes (failFromSession 2) appBatch 0
      [discardStmt ⟨"app".toList, [], []⟩ "%".toList]
      (discardStmt ⟨"app".toList, [], []⟩ "localhost".toList)
      ["FLUSH PRIVILEGES".toList] _ _ (by decide)).2 (by decide)⟩

/-- C6: when `START TRANSACTION`, every per-user statement and `FLUSH PRIVILEGES`
succeed and `COMMIT` fails with `e`, the operation returns `e` wrapped as
`commit transaction` and nothing else, `COMMIT` is the last statement issued and
no `ROLLBACK` is issued; for `UpdateUserPasswords` and for `DiscardOldPasswords`. -/
theorem commit_failure_returned_alone {σ : Type} (d : dbExecImpl σ) (users : List User)
    (w : σ) (e : GoError) :
    (d.results ("START TRANSACTION".toList
          :: (alterStatements users ++ ["FLUSH PRIVILEGES".toList, "COMMIT".toList])) w
        = List.replicate ((alterStatements users).length + 2) none ++ [some e] →
      (d.UpdateUserPasswords users (Run.start w)).1
          = some (.wrap e "commit transaction".toList)
        ∧ (d.UpdateUserPasswords users (Run.start w)).2.statements
          = "START TRANSACTION".toList
            :: (alterStatements users ++ ["FLUSH PRIVILEGES".toList, "COMMIT".toList])
        ∧ (d.UpdateUserPasswords users (Run.start w)).2.statements.getLast?
          = some "COMMIT".toList
        ∧ "ROLLBACK".toList ∉ (d.UpdateUserPasswords users (Run.start w)).2.statements)
    ∧ (d.results ("START TRANSACTION".toList
          :: (discardStatements users ++ ["FLUSH PRIVILEGES".toList, "COMMIT".toList])) w
        = List.replicate ((discardStatements users).length + 2) none ++ [some e] →
      (d.DiscardOldPasswords users (Run.start w)).1
          = some (.wrap e "commit transaction".toList)
        ∧ (d.DiscardOldPasswords users (Run.start w)).2.statements
          = "START TRANSACTION".toList
            :: (discardStatements users ++ ["FLUSH PRIVILEGES".toList, "COMMIT".toList])
        ∧ (d.DiscardOldPasswords users (Run.start w)).2.statements.getLast?
          = some "COMMIT".toList
        ∧ "ROLLBACK".toList ∉ (d.DiscardOldPasswords users (Run.start w)).2.statements)
    ∧ (GoError.wrap e "commit transaction".toList).cause? = some e
    ∧ (GoError.wrap e "commit transaction".toList).Error
        = "commit transaction: ".toList ++ e.Error := by
  refine ⟨fun h => ?_, fun h => ?_, rfl, ?_⟩
  · rw [UpdateUserPasswords_eq]
    exact transaction_commit_fails d _ _ w e (alterStatements_head users) h
  · rw [DiscardOldPasswords_eq]
    exact transaction_commit_fails d _ _ w e (discardStatements_head users) h
  · simp [GoError.Error]

set_option maxRecDepth 100000 in
/-- A witness of C6: on the scenario batch the invocation numbered 4, the `COMMIT`,
fails. -/
theorem commit_failure_returned_alone_witness :
    ((failAtSession 4).UpdateUserPasswords appBatch (Run.start 0)).1
        = some (.wrap (boomError (failAtSession 4) "COMMIT".toList)
            "commit transaction".toList)
      ∧ ((failAtSession 4).DiscardOldPasswords appBatch (Run.start 0)).1
        = some (.wrap (boomError (failAtSession 4) "COMMIT".toList)
            "commit transaction".toList) :=
  have h := commit_failure_returned_alone (failAtSession 4) appBatch 0
    (boomError (failAtSession 4) "COMMIT".toList)
  ⟨(h.1 (by decide)).1, (h.2.1 (by decide)).1⟩

/-- C8: when `START TRANSACTION` fails with `e`, `UpdateUserPasswords` and
`DiscardOldPasswords` return `e` itself and have issued that one statement only. -/
theorem start_failure_aborts {σ : Type} (d : dbExecImpl σ) (users : List User) (w : σ)
    (e : GoError) (h : (d.exec "START TRANSACTION".toList w).1 = some e) :
    (d.UpdateUserPasswords users (Run.start w)).1 = some e
      ∧ (d.UpdateUserPasswords users (Run.start w)).2.statements
        = ["START TRANSACTION".toList]
      ∧ (d.DiscardOldPasswords users (Run.start w)).1 = some e
      ∧ (d.DiscardOldPasswords users (Run.start w)).2.statements
        = ["START TRANSACTION".toList] := by
  rw [UpdateUserPasswords_eq, DiscardOldPasswords_eq, transaction_start_fail d _ w e h,
    transaction_start_fail d _ w e h]
  exact ⟨rfl, rfl, rfl, rfl⟩

set_option maxRecDepth 100000 in
/-- A witness of C8: the first invocation fails. -/
theorem start_failure_aborts_witness :
    (brokenSession.UpdateUserPasswords appBatch (Run.start 0)).1
        = some (boomError brokenSession "START TRANSACTION".toList)
      ∧ (brokenSession.UpdateUserPasswords appBatch (Run.start 0)).2.statements
        = ["START TRANSACTION".toList]
      ∧ (brokenSession.DiscardOldPasswords appBatch (Run.start 0)).1
        = some (boomError brokenSession "START TRANSACTION".toList)
      ∧ (brokenSession.DiscardOldPasswords appBatch (Run.start 0)).2.statements
        = ["START TRANSACTION".toList] :=
  start_failure_aborts brokenSession appBatch 0
    (boomError brokenSession "START TRANSACTION".toList) (by decide)

/-! ## Further claims about escaping -/

/-- C18: on the password made of one single quote `escapePass` gives backslash,
backslash, quote, while escaping the backslash first and the quotes afterwards
gives backslash, quote: the two differ. -/
theorem escapePass_differs_from_backslash_first :
    escapePass "'".toList = "\\\\'".toList
      ∧ escapeBackslashFirst "'".toList = "\\'".toList
      ∧ escapePass "'".toList ≠ escapeBackslashFirst "'".toList := by
  decide

/-- C20: a password without single quote, double quote and backslash is left as
it is by `escapePass`; it stands verbatim in the `ALTER USER` statement and after
`-p` in the argument vector. -/
theorem escapePass_plain {σ : Type} (p : GoString)
    (h1 : '\'' ∉ p) (h2 : '"' ∉ p) (h3 : '\\' ∉ p) :
    escapePass p = p
      ∧ (∀ (name host : GoString) (hosts : List GoString),
          alterUserStmt ⟨name, p, hosts⟩ host
            = "ALTER USER '".toList ++ name ++ "'@'".toList ++ host
              ++ "' IDENTIFIED BY '".toList ++ p ++ "' RETAIN CURRENT PASSWORD".toList)
      ∧ (∀ (client : Client σ) (user host stm : GoString),
          dbExecImpl.cmd ⟨client, user, p, host⟩ stm
            = ["mysql".toList, "--database".toList, "performance_schema".toList,
                "-p".toList ++ p, "-u".toList, user, "-h".toList, host, "-e".toList, stm]) := by
  have h := escapePass_of_plain p h1 h2 h3
  refine ⟨h, ?_, ?_⟩
  · intro name host hosts
    simp only [alterUserStmt, h]
  · intro client user host stm
    simp only [dbExecImpl.cmd, h]

/-- A witness of C20 on the password `s3cr3t@db`. -/
theorem escapePass_plain_witness :
    escapePass "s3cr3t@db".toList = "s3cr3t@db".toList :=
  (escapePass_plain (σ := Unit) "s3cr3t@db".toList (by decide) (by decide) (by decide)).1

/-! ## Further claims about the two operations -/

/-- C11: when no user of the batch has a host pattern (the empty batch included)
and `START TRANSACTION`, `FLUSH PRIVILEGES` and `COMMIT` succeed,
`UpdateUserPasswords` issues exactly these three statements in this order and
returns success; the users contribute no statement. -/
theorem UpdateUserPasswords_no_hosts {σ : Type} (d : dbExecImpl σ) (users : List User)
    (w : σ) (hh : ∀ u ∈ users, u.Hosts = [])
    (hok : ∀ e ∈ d.results ["START TRANSACTION".toList, "FLUSH PRIVILEGES".toList,
      "COMMIT".toList] w, e = none) :
    (d.UpdateUserPasswords users (Run.start w)).1 = none
      ∧ (d.UpdateUserPasswords users (Run.start w)).2.statements
        = ["START TRANSACTION".toList, "FLUSH PRIVILEGES".toList, "COMMIT".toList]
      ∧ alterStatements users = [] := by
  have hn := alterStatements_no_hosts users hh
  have h := transaction_success d "alter user".toList (alterStatements users) w
    (by rw [hn]; exact hok)
  rw [hn] at h
  rw [UpdateUserPasswords_eq, hn]
  exact ⟨h.1, h.2, rfl⟩

/-- A witness of C11: the empty batch, and a batch of two users without hosts. -/
theorem UpdateUserPasswords_no_hosts_witness :
    (quietSession.UpdateUserPasswords [] (Run.start ())).2.statements
        = ["START TRANSACTION".toList, "FLUSH PRIVILEGES".toList, "COMMIT".toList]
      ∧ (quietSession.UpdateUserPasswords
          [⟨"app".toList, "pw".toList, []⟩, ⟨"web".toList, "pw2".toList, []⟩]
          (Run.start ())).1 = none :=
  ⟨(UpdateUserPasswords_no_hosts quietSession [] () (by decide) (by decide)).2.1,
   (UpdateUserPasswords_no_hosts quietSession
      [⟨"app".toList, "pw".toList, []⟩, ⟨"web".toList, "pw2".toList, []⟩] ()
      (by decide) (by decide)).1⟩

/-- C12: when `START TRANSACTION`, the `DISCARD OLD PASSWORD` statements of the
batch, `FLUSH PRIVILEGES` and `COMMIT` all succeed, `DiscardOldPasswords` returns
success and issues exactly these statements: for each user in batch order and each
of its hosts in order `ALTER USER '<user>'@'<host>' DISCARD OLD PASSWORD`, between
`START TRANSACTION` and `FLUSH PRIVILEGES`, `COMMIT`. -/
theorem DiscardOldPasswords_success {σ : Type} (d : dbExecImpl σ) (users : List User) (w : σ)
    (hok : ∀ e ∈ d.results ("START TRANSACTION".toList
      :: (discardStatements users ++ ["FLUSH PRIVILEGES".toList, "COMMIT".toList])) w,
      e = none) :
    (d.DiscardOldPasswords users (Run.start w)).1 = none
      ∧ (d.DiscardOldPasswords users (Run.start w)).2.statements
        = "START TRANSACTION".toList
          :: (discardStatements users ++ ["FLUSH PRIVILEGES".toList, "COMMIT".toList])
      ∧ discardStatements users
        = users.flatMap (fun user => user.Hosts.map (fun host =>
            "ALTER USER '".toList ++ user.Username ++ "'@'".toList ++ host
              ++ "' DISCARD OLD PASSWORD".toList)) := by
  rw [DiscardOldPasswords_eq]
  have h := transaction_success d "discard old password".toList (discardStatements users) w hok
  exact ⟨h.1, h.2, rfl⟩

/-- A witness of C12: the scenario batch on the quiet remote side. -/
theorem DiscardOldPasswords_success_witness :
    (quietSession.DiscardOldPasswords appBatch (Run.start ())).1 = none
      ∧ (quietSession.DiscardOldPasswords appBatch (Run.start ())).2.statements
        = ["START TRANSACTION".toList,
           "ALTER USER 'app'@'%' DISCARD OLD PASSWORD".toList,
           "ALTER USER 'app'@'localhost' DISCARD OLD PASSWORD".toList,
           "FLUSH PRIVILEGES".toList, "COMMIT".toList] :=
  have h := DiscardOldPasswords_success quietSession appBatch () (by decide)
  ⟨h.1, h.2.1⟩

/-- C13: when `START TRANSACTION` and every per-user statement succeed and `FLUSH
PRIVILEGES` fails, the operation returns an error, the statements issued are
`START TRANSACTION`, the per-user statements, `FLUSH PRIVILEGES` and then
`ROLLBACK`, which is issued once, and `COMMIT` is not issued; for
`UpdateUserPasswords` and for `DiscardOldPasswords`. -/
theorem flush_failure_rolls_back {σ : Type} (d : dbExecImpl σ) (users : List User)
    (w : σ) (e : GoError) :
    (d.results ("START TRANSACTION".toList
          :: (alterStatements users ++ ["FLUSH PRIVILEGES".toList])) w
        = List.replicate ((alterStatements users).length + 1) none ++ [some e] →
      (∃ err, (d.UpdateUserPasswords users (Run.start w)).1 = some err)
        ∧ (d.UpdateUserPasswords users (Run.start w)).2.statements
          = "START TRANSACTION".toList
            :: (alterStatements users ++ ["FLUSH PRIVILEGES".toList, "ROLLBACK".toList])
        ∧ (d.UpdateUserPasswords users (Run.start w)).2.statements.count
            "ROLLBACK".toList = 1
        ∧ "COMMIT".toList ∉ (d.UpdateUserPasswords users (Run.start w)).2.statements)
    ∧ (d.results ("START TRANSACTION".toList
          :: (discardStatements users ++ ["FLUSH PRIVILEGES".toList])) w
        = List.replicate ((discardStatements users).length + 1) none ++ [some e] →
      (∃ err, (d.DiscardOldPasswords users (Run.start w)).1 = some err)
        ∧ (d.DiscardOldPasswords users (Run.start w)).2.statements
          = "START TRANSACTION".toList
            :: (discardStatements users ++ ["FLUSH PRIVILEGES".toList, "ROLLBACK".toList])
        ∧ (d.DiscardOldPasswords users (Run.start w)).2.statements.count
            "ROLLBACK".toList = 1
        ∧ "COMMIT".toList ∉ (d.DiscardOldPasswords users (Run.start w)).2.statements) := by
  constructor
  · intro h
    rw [UpdateUserPasswords_eq]
    obtain ⟨⟨x, h1⟩, h2, h3, h4⟩ :=
      transaction_flush_fails d "alter user".toList _ w e (alterStatements_head users) h
    exact ⟨⟨_, h1⟩, h2, h3, h4⟩
  · intro h
    rw [DiscardOldPasswords_eq]
    obtain ⟨⟨x, h1⟩, h2, h3, h4⟩ :=
      transaction_flush_fails d "discard old password".toList _ w e
        (discardStatements_head users) h
    exact ⟨⟨_, h1⟩, h2, h3, h4⟩

set_option maxRecDepth 100000 in
/-- A witness of C13: on the scenario batch the invocation numbered 3, the `FLUSH
PRIVILEGES`, fails. -/
theorem flush_failure_rolls_back_witness :
    ((failAtSession 3).UpdateUserPasswords appBatch (Run.start 0)).2.statements.count
        "ROLLBACK".toList = 1
      ∧ ((failAtSession 3).DiscardOldPasswords appBatch (Run.start 0)).2.statements.count
        "ROLLBACK".toList = 1 :=
  have h := flush_failure_rolls_back (failAtSession 3) appBatch 0
    (boomError (failAtSession 3) "FLUSH PRIVILEGES".toList)
  ⟨(h.1 (by decide)).2.2.1, (h.2 (by decide)).2.2.1⟩

/-- C14: when `START TRANSACTION` and the first `k - 1` per-user statements succeed,
the `k`-th fails with `e` and the `ROLLBACK` after it succeeds, the returned error
is `e` wrapped with the annotation of the operation: its cause is `e` and its
message is `alter user: ` followed by the message of `e` for
`UpdateUserPasswords`, `discard old password: ` followed by it for
`DiscardOldPasswords`. -/
theorem statement_failure_annotated {σ : Type} (d : dbExecImpl σ) (users : List User)
    (w : σ) (k : Nat) (e : GoError) (hk1 : 1 ≤ k) :
    (k ≤ (alterStatements users).length →
      d.results ("START TRANSACTION".toList
          :: ((alterStatements users).take k ++ ["ROLLBACK".toList])) w
        = List.replicate k none ++ [some e, none] →
      ∃ err, (d.UpdateUserPasswords users (Run.start w)).1 = some err
        ∧ err.cause? = some e
        ∧ err.Error = "alter user: ".toList ++ e.Error)
    ∧ (k ≤ (discardStatements users).length →
      d.results ("START TRANSACTION".toList
          :: ((discardStatements users).take k ++ ["ROLLBACK".toList])) w
        = List.replicate k none ++ [some e, none] →
      ∃ err, (d.DiscardOldPasswords users (Run.start w)).1 = some err
        ∧ err.cause? = some e
        ∧ err.Error = "discard old password: ".toList ++ e.Error) := by
  constructor
  · intro hk h
    rw [UpdateUserPasswords_eq]
    refine ⟨_, (transaction_rollback_ok d "alter user".toList _ w k e hk1 hk h).1, rfl, ?_⟩
    simp [GoError.Error]
  · intro hk h
    rw [DiscardOldPasswords_eq]
    refine ⟨_, (transaction_rollback_ok d "discard old password".toList _ w k e hk1 hk h).1,
      rfl, ?_⟩
    simp [GoError.Error]

set_option maxRecDepth 100000 in
/-- A witness of C14: the second per-user statement of the scenario batch fails
and the `ROLLBACK` goes through. -/
theorem statement_failure_annotated_witness :
    (((failAtSession 2).UpdateUserPasswords appBatch (Run.start 0)).1.map GoError.Error
        = some ("alter user: ".toList ++ (boomError (failAtSession 2)
            (alterUserStmt ⟨"app".toList, "p@ss'w\"rd".toList, []⟩
              "localhost".toList)).Error))
      ∧ (((failAtSession 2).DiscardOldPasswords appBatch (Run.start 0)).1.map GoError.Error
        = some ("discard old password: ".toList ++ (boomError (failAtSession 2)
            (discardStmt ⟨"app".toList, [], []⟩ "localhost".toList)).Error)) := by
  obtain ⟨err, h1, _, h3⟩ := (statement_failure_annotated (failAtSession 2) appBatch 0 2
    (boomError (failAtSession 2)
      (alterUserStmt ⟨"app".toList, "p@ss'w\"rd".toList, []⟩ "localhost".toList))
    (by decide)).1 (by decide) (by decide)
  obtain ⟨err2, h4, _, h6⟩ := (statement_failure_annotated (failAtSession 2) appBatch 0 2
    (boomError (failAtSession 2) (discardStmt ⟨"app".toList, [], []⟩ "localhost".toList))
    (by decide)).2 (by decide) (by decide)
  rw [h1, h4, Option.map_some', Option.map_some', h3, h6]
  exact ⟨rfl, rfl⟩

/-- C19: two batches with the same usernames and host patterns, whatever their
passwords, make `DiscardOldPasswords` issue the same statements and return the
same result from the same run, and the statements are built from the usernames
and hosts alone. -/
theorem DiscardOldPasswords_ignores_passwords {σ : Type} (d : dbExecImpl σ)
    (users users2 : List User) (r : Run σ) (h : accountsOf users = accountsOf users2) :
    d.DiscardOldPasswords users r = d.DiscardOldPasswords users2 r
      ∧ (d.DiscardOldPasswords users r).2.statements
        = (d.DiscardOldPasswords users2 r).2.statements
      ∧ (d.DiscardOldPasswords users r).1 = (d.DiscardOldPasswords users2 r).1
      ∧ discardStatements users
        = (accountsOf users).flatMap (fun a => a.2.map (fun host =>
            "ALTER USER '".toList ++ a.1 ++ "'@'".toList ++ host
              ++ "' DISCARD OLD PASSWORD".toList)) := by
  have hs : discardStatements users = discardStatements users2 := by
    rw [discardStatements_accounts, discardStatements_accounts, h]
  have heq : d.DiscardOldPasswords users r = d.DiscardOldPasswords users2 r := by
    rw [DiscardOldPasswords_eq, DiscardOldPasswords_eq, hs]
  exact ⟨heq, by rw [heq], by rw [heq], discardStatements_accounts users⟩

/-- A witness of C19: the scenario batch and the same accounts with another
password. -/
theorem DiscardOldPasswords_ignores_passwords_witness :
    (failAtSession 2).DiscardOldPasswords appBatch (Run.start 0)
      = (failAtSession 2).DiscardOldPasswords
          [⟨"app".toList, "other".toList, ["%".toList, "localhost".toList]⟩] (Run.start 0) :=
  (DiscardOldPasswords_ignores_passwords (failAtSession 2) appBatch
    [⟨"app".toList, "other".toList, ["%".toList, "localhost".toList]⟩] (Run.start 0)
    (by decide)).1

/-- C15, counterexample: the first `ALTER USER` of the scenario batch runs but the
server reports an SQL error; the returned message is the annotation and the SQL
error text, and holds neither the username `app` nor the host pattern `%`. -/
theorem sql_failure_message_lacks_pair :
    ((sqlFailAtSession 1).UpdateUserPasswords appBatch (Run.start 0)).1.map GoError.Error
        = some "alter user: sql error: ERROR 1045 (28000): Access denied".toList
      ∧ ((sqlFailAtSession 1).UpdateUserPasswords appBatch (Run.start 0)).2.statements
        = ["START TRANSACTION".toList,
            alterUserStmt ⟨"app".toList, "p@ss'w\"rd".toList, []⟩ "%".toList,
            "ROLLBACK".toList]
      ∧ ¬ "app".toList <:+: "alter user: sql error: ERROR 1045 (28000): Access denied".toList
      ∧ ¬ "%".toList <:+: "alter user: sql error: ERROR 1045 (28000): Access denied".toList := by
  decide

/-- C15, amended: when `START TRANSACTION` and the per-user statements before the
one for a user and host succeed and that statement fails at transport level, the
error returned by `UpdateUserPasswords`, and likewise by `DiscardOldPasswords`,
contains the failing statement, the username and the host pattern. -/
theorem transport_failure_names_pair {σ : Type} (d : dbExecImpl σ) (users : List User)
    (w : σ) (pre : List GoString) (user : User) (host : GoString) (post : List GoString)
    (te : GoError)
    (hok : d.results ("START TRANSACTION".toList :: pre) w
      = List.replicate (pre.length + 1) none) :
    (alterStatements users = pre ++ alterUserStmt user host :: post →
      (d.client.Exec (d.after ("START TRANSACTION".toList :: pre) w)
        (d.cmd (alterUserStmt user host))).1.err = some te →
      ∃ err, (d.UpdateUserPasswords users (Run.start w)).1 = some err
        ∧ alterUserStmt user host <:+: err.Error
        ∧ user.Username <:+: err.Error ∧ host <:+: err.Error)
    ∧ (discardStatements users = pre ++ discardStmt user host :: post →
      (d.client.Exec (d.after ("START TRANSACTION".toList :: pre) w)
        (d.cmd (discardStmt user host))).1.err = some te →
      ∃ err, (d.DiscardOldPasswords users (Run.start w)).1 = some err
        ∧ discardStmt user host <:+: err.Error
        ∧ user.Username <:+: err.Error ∧ host <:+: err.Error) := by
  constructor
  · intro hs hte
    obtain ⟨err, h1, h2⟩ := transaction_transport_failure d "alter user".toList
      (alterStatements users) w pre _ post te hs hok hte
    refine ⟨err, by rw [UpdateUserPasswords_eq, h1], h2, List.IsInfix.trans ?_ h2,
      List.IsInfix.trans ?_ h2⟩
    · exact ⟨"ALTER USER '".toList, "'@'".toList ++ host ++ "' IDENTIFIED BY '".toList
        ++ escapePass user.Password ++ "' RETAIN CURRENT PASSWORD".toList,
        by simp [alterUserStmt]⟩
    · exact ⟨"ALTER USER '".toList ++ user.Username ++ "'@'".toList,
        "' IDENTIFIED BY '".toList ++ escapePass user.Password
          ++ "' RETAIN CURRENT PASSWORD".toList, by simp [alterUserStmt]⟩
  · intro hs hte
    obtain ⟨err, h1, h2⟩ := transaction_transport_failure d "discard old password".toList
      (discardStatements users) w pre _ post te hs hok hte
    refine ⟨err, by rw [DiscardOldPasswords_eq, h1], h2, List.IsInfix.trans ?_ h2,
      List.IsInfix.trans ?_ h2⟩
    · exact ⟨"ALTER USER '".toList, "'@'".toList ++ host ++ "' DISCARD OLD PASSWORD".toList,
        by simp [discardStmt]⟩
    · exact ⟨"ALTER USER '".toList ++ user.Username ++ "'@'".toList,
        "' DISCARD OLD PASSWORD".toList, by simp [discardStmt]⟩

set_option maxRecDepth 100000 in
/-- A witness of the amended C15: the second per-user statement of the scenario
batch fails at transport level. -/
theorem transport_failure_names_pair_witness :
    (∃ err, ((failAtSession 2).UpdateUserPasswords appBatch (Run.start 0)).1 = some err
      ∧ "app".toList <:+: err.Error ∧ "localhost".toList <:+: err.Error)
    ∧ (∃ err, ((failAtSession 2).DiscardOldPasswords appBatch (Run.start 0)).1 = some err
      ∧ "app".toList <:+: err.Error ∧ "localhost".toList <:+: err.Error) := by
  obtain ⟨err, h1, _, h3, h4⟩ := (transport_failure_names_pair (failAtSession 2) appBatch 0
    [alterUserStmt ⟨"app".toList, "p@ss'w\"rd".toList, []⟩ "%".toList]
    ⟨"app".toList, "p@ss'w\"rd".toList, []⟩ "localhost".toList [] (.leaf "boom".toList)
    (by decide)).1 (by decide) (by decide)
  obtain ⟨err2, h5, _, h7, h8⟩ := (transport_failure_names_pair (failAtSession 2) appBatch 0
    [discardStmt ⟨"app".toList, [], []⟩ "%".toList]
    ⟨"app".toList, [], []⟩ "localhost".toList [] (.leaf "boom".toList)
    (by decide)).2 (by decide) (by decide)
  exact ⟨⟨err, h1, h3, h4⟩, ⟨err2, h5, h7, h8⟩⟩

/-- C16: when `START TRANSACTION` succeeds, the statements issued by
`UpdateUserPasswords`, and likewise by `DiscardOldPasswords`, are `START
TRANSACTION`, then per-user statements and possibly `FLUSH PRIVILEGES` (a prefix of
the sequence of the operation), then one last statement that is `COMMIT` or
`ROLLBACK`; `START TRANSACTION`, `COMMIT` and `ROLLBACK` do not occur in between,
so `START TRANSACTION` is issued once and `COMMIT` and `ROLLBACK` together once. -/
theorem one_terminating_statement {σ : Type} (d : dbExecImpl σ) (users : List User) (w : σ)
    (h0 : (d.exec "START TRANSACTION".toList w).1 = none) :
    (∃ body t, (d.UpdateUserPasswords users (Run.start w)).2.statements
        = "START TRANSACTION".toList :: (body ++ [t])
      ∧ (t = "COMMIT".toList ∨ t = "ROLLBACK".toList)
      ∧ body <+: alterStatements users ++ ["FLUSH PRIVILEGES".toList]
      ∧ "START TRANSACTION".toList ∉ body ∧ "COMMIT".toList ∉ body
      ∧ "ROLLBACK".toList ∉ body
      ∧ (d.UpdateUserPasswords users (Run.start w)).2.statements.count
          "START TRANSACTION".toList = 1
      ∧ (d.UpdateUserPasswords users (Run.start w)).2.statements.count "COMMIT".toList
          + (d.UpdateUserPasswords users (Run.start w)).2.statements.count
            "ROLLBACK".toList = 1)
    ∧ (∃ body t, (d.DiscardOldPasswords users (Run.start w)).2.statements
        = "START TRANSACTION".toList :: (body ++ [t])
      ∧ (t = "COMMIT".toList ∨ t = "ROLLBACK".toList)
      ∧ body <+: discardStatements users ++ ["FLUSH PRIVILEGES".toList]
      ∧ "START TRANSACTION".toList ∉ body ∧ "COMMIT".toList ∉ body
      ∧ "ROLLBACK".toList ∉ body
      ∧ (d.DiscardOldPasswords users (Run.start w)).2.statements.count
          "START TRANSACTION".toList = 1
      ∧ (d.DiscardOldPasswords users (Run.start w)).2.statements.count "COMMIT".toList
          + (d.DiscardOldPasswords users (Run.start w)).2.statements.count
            "ROLLBACK".toList = 1) := by
  constructor
  · obtain ⟨body, t, h1, h2, h3⟩ :=
      transaction_terminates d "alter user".toList (alterStatements users) w h0
    obtain ⟨c1, c2, c3, c4, c5⟩ :=
      terminated_counts _ body t (alterStatements_head users) h3 h2
    rw [UpdateUserPasswords_eq]
    exact ⟨body, t, h1, h2, h3, c1, c2, c3, by rw [h1]; exact c4, by rw [h1]; exact c5⟩
  · obtain ⟨body, t, h1, h2, h3⟩ :=
      transaction_terminates d "discard old password".toList (discardStatements users) w h0
    obtain ⟨c1, c2, c3, c4, c5⟩ :=
      terminated_counts _ body t (discardStatements_head users) h3 h2
    rw [DiscardOldPasswords_eq]
    exact ⟨body, t, h1, h2, h3, c1, c2, c3, by rw [h1]; exact c4, by rw [h1]; exact c5⟩

set_option maxRecDepth 100000 in
/-- A witness of C16: the second per-user statement of the scenario batch fails. -/
theorem one_terminating_statement_witness :
    ((failAtSession 2).UpdateUserPasswords appBatch (Run.start 0)).2.statements.count
        "COMMIT".toList
      + ((failAtSession 2).UpdateUserPasswords appBatch (Run.start 0)).2.statements.count
        "ROLLBACK".toList = 1 := by
  obtain ⟨_, _, _, _, _, _, _, _, _, h⟩ :=
    (one_terminating_statement (failAtSession 2) appBatch 0 (by decide)).1
  exact h

/-- C17: `UpdateUserPasswords`, and likewise `DiscardOldPasswords`, returns success
exactly when every statement it issued succeeded, and exactly when `COMMIT` was
issued and succeeded; whatever the remote side does. -/
theorem success_iff_all_succeeded {σ : Type} (d : dbExecImpl σ) (users : List User) (w : σ) :
    (((d.UpdateUserPasswords users (Run.start w)).1 = none
        ↔ ∀ entry ∈ (d.UpdateUserPasswords users (Run.start w)).2.issued, entry.2 = none)
      ∧ ((d.UpdateUserPasswords users (Run.start w)).1 = none
        ↔ ("COMMIT".toList, (none : Option GoError))
            ∈ (d.UpdateUserPasswords users (Run.start w)).2.issued))
    ∧ (((d.DiscardOldPasswords users (Run.start w)).1 = none
        ↔ ∀ entry ∈ (d.DiscardOldPasswords users (Run.start w)).2.issued, entry.2 = none)
      ∧ ((d.DiscardOldPasswords users (Run.start w)).1 = none
        ↔ ("COMMIT".toList, (none : Option GoError))
            ∈ (d.DiscardOldPasswords users (Run.start w)).2.issued)) := by
  rw [UpdateUserPasswords_eq, DiscardOldPasswords_eq]
  exact ⟨transaction_success_iff d _ _ w (alterStatements_head users),
    transaction_success_iff d _ _ w (discardStatements_head users)⟩

end Users
